import Mathlib

/-!
Verification development for the instruction fetch unit of the gem5 O3 CPU
with a decoupled front end (source: src/cpu/o3/fetch.cc).

The embedding models the fetch pipeline controller as a state machine:
pure Lean functions mirror the source member functions (doSquash,
processCacheCompletion, trySatisfyPrefetch, makeRequest, performCacheAccess,
fetchCacheLine, startTranslation, finishTranslation, processFTQ,
recvReqRetry, roundRobin, getFetchingThread, profileStall), and an event
relation composes them with environment inputs (MMU completions, cache
responses and back pressure, squash signals from commit and decode, BAC
activity on the fetch target queue).

Modelling conventions, stated once here:

* Addresses and thread ids are natural numbers.  Requests are identified by
  an allocation counter rid; value equality of the modelled Request stands
  for pointer equality of the C++ RequestPtr, which is sound because every
  request allocation in the model uses a fresh rid.
* The physical address of a request is held in a heap map paddrOf indexed
  by rid, mirroring mutation of the shared C++ request object.
* Fetch targets (owned by the external FTQ; only observed by fetch.cc) are
  modelled from the spec: lifecycle Initial, TranslationInProgress,
  TranslationReady or TranslationFailed, PrefetchInProgress, ReadyToFetch,
  with popReq detaching the request, markReady, prefetchIssued and
  finishTranslation as state transitions.
* Byte contents of the fetch buffer, program counter state, macro op and
  decoder state, statistics sampling of latencies, and the instruction
  decode loop are not modelled; no claim under verification depends on
  them.  The field staleReq is a ghost flag (it influences nothing) that
  records that a squash left a request pointer behind.
-/

namespace O3Fetch

/-- FSM states of a fetch thread (enum ThreadStatus in fetch.hh). -/
inductive ThreadStatus where
  | Running
  | Idle
  | Squashing
  | Blocked
  | FTQEmpty
  | QuiescePending
  | ItlbWait
  | IcacheWaitResponse
  | IcacheWaitRetry
  | IcacheAccessComplete
  | NoGoodAddr
  | TrapPending
deriving DecidableEq

/-- SMT fetch policies (params.smtFetchPolicy). -/
inductive SMTFetchPolicy where
  | RoundRobin
  | IQCount
  | LSQCount
  | Branch
deriving DecidableEq

/-- A memory request.  rid is the allocation identity (pointer identity of
the RequestPtr); vaddr the virtual address the request was built for.  The
physical address lives in the paddrOf heap of the state. -/
structure Request where
  rid : Nat
  vaddr : Nat
deriving DecidableEq

/-- Lifecycle states of a fetch target, modelled from the spec (the FTQ and
its fetch targets are an external collaborator; fetch.cc only drives them
through popReq, markReady, prefetchIssued, startTranslation and
finishTranslation). -/
inductive FTState where
  | Initial
  | TranslationInProgress
  | TranslationReady
  | TranslationFailed
  | PrefetchInProgress
  | ReadyToFetch
deriving DecidableEq

/-- One entry of the fetch target queue, as observed by the fetch unit.
fid is the identity of the entry, startAddress the first address of the
target, blkAddr its cache block address, paddr the physical address once
translation finished, fallThru whether the target falls through
sequentially to the next one. -/
structure FetchTarget where
  fid : Nat
  state : FTState
  req : Option Request
  paddr : Option Nat
  blkAddr : Nat
  startAddress : Nat
  fallThru : Bool
  fault : Bool
deriving DecidableEq

/-- ft.markReady: transition the fetch target to ReadyToFetch. -/
def markReadyFT (f : FetchTarget) : FetchTarget :=
  { f with state := FTState.ReadyToFetch }

/-- ft.popReq: detach the owned request (the caller receives it). -/
def popReqFT (f : FetchTarget) : FetchTarget :=
  { f with req := none }

/-- ft.prefetchIssued: transition to PrefetchInProgress. -/
def prefetchIssuedFT (f : FetchTarget) : FetchTarget :=
  { f with state := FTState.PrefetchInProgress }

/-- ft.startTranslation(req): bind the request and move to
TranslationInProgress. -/
def startTranslationFT (r : Request) (f : FetchTarget) : FetchTarget :=
  { f with req := some r, state := FTState.TranslationInProgress }

/-- ft.finishTranslation(fault, req): record the translation outcome,
modelled from the spec lifecycle (TranslationReady or TranslationFailed;
on success the physical address of the block becomes known). -/
def finishTranslationFT (fault : Bool) (pa : Nat) (f : FetchTarget) :
    FetchTarget :=
  if fault then { f with state := FTState.TranslationFailed, fault := true }
  else { f with state := FTState.TranslationReady, paddr := some pa }

/-- ft.requiresTranslation: the target still needs a translation. -/
def requiresTranslationFT (f : FetchTarget) : Bool :=
  f.state = FTState.Initial

/-- ft.translationReady: the target has a completed translation waiting to
be prefetched. -/
def translationReadyFT (f : FetchTarget) : Bool :=
  f.state = FTState.TranslationReady

/-- Statistics counters of the fetch unit (only those the claims touch,
plus the stall profile counters of profileStall). -/
structure Stats where
  squashCycles : Nat := 0
  icacheSquashes : Nat := 0
  tlbSquashes : Nat := 0
  pfSquashed : Int := 0
  pfIssued : Nat := 0
  pfReceived : Nat := 0
  pfLate : Nat := 0
  pfLimitReached : Nat := 0
  pfTranslationLimitReached : Nat := 0
  cacheLines : Nat := 0
  ftReadyToFetch : Nat := 0
  ftPrefetchInProgress : Nat := 0
  ftTranslationInProgress : Nat := 0
  ftTranslationReady : Nat := 0
  ftTranslationFailed : Nat := 0
  ftCrossCacheBlock : Nat := 0
  ftCrossCacheBlockNotNext : Nat := 0
  pendingDrainCycles : Nat := 0
  noActiveThreadStallCycles : Nat := 0
  blockedCycles : Nat := 0
  icacheStallCycles : Nat := 0
  tlbCycles : Nat := 0
  ftqStallCycles : Nat := 0
  pendingTrapStallCycles : Nat := 0
  pendingQuiesceStallCycles : Nat := 0
  icacheWaitRetryStallCycles : Nat := 0
deriving DecidableEq

/-- Configuration parameters of the fetch stage (BaseO3CPUParams), plus the
memory map predicate of the system (system.isMemAddr). -/
structure Params where
  numThreads : Nat
  numFetchingThreads : Nat
  decoupledFrontEnd : Bool
  fetchPolicy : SMTFetchPolicy
  maxOutstandingPrefetches : Int
  maxOutstandingTranslations : Int
  cacheBlkSize : Nat
  fetchBufferSize : Nat
  fetchWidth : Nat
  fetchQueueSize : Nat
  isMemAddr : Nat → Bool

/-- The mutable state of the fetch unit.  Per thread fields are total
functions from thread ids.  pendingTrans models the requests currently held
by the MMU (request, thread, bound fetch target fid); inFlight models the
packets currently travelling in the memory system (request, thread,
isPrefetch).  Both exist in the C++ only implicitly as callbacks held by
the environment. -/
structure FetchState where
  fetchStatus : Nat → ThreadStatus
  memReq : Nat → Option Request
  fetchQueue : Nat → List Nat
  fetchBufferPC : Nat → Nat
  fetchBufferValid : Nat → Bool
  stallDrain : Nat → Bool
  delayedCommit : Nat → Bool
  interruptPending : Bool
  retryPkt : Option Request
  retryTid : Option Nat
  cacheBlocked : Bool
  outstandingPrefetches : Int
  outstandingTranslations : Int
  fetchesInProgress : List Nat
  ftq : Nat → List FetchTarget
  pendingTrans : List (Request × Nat × Option Nat)
  inFlight : List (Request × Nat × Bool)
  paddrOf : Nat → Option Nat
  nextRid : Nat
  nextFid : Nat
  numInst : Nat
  threadFetched : Nat
  priorityList : List Nat
  activeThreads : List Nat
  stats : Stats
  staleReq : Nat → Bool

/-- Pointwise update of a per thread field. -/
def upd {α : Type} (f : Nat → α) (i : Nat) (v : α) : Nat → α :=
  fun j => if j = i then v else f j

/-- Insertion into a set of addresses (std::set semantics: no duplicate). -/
def insertSet (a : Nat) (l : List Nat) : List Nat :=
  if a ∈ l then l else a :: l

/-- fetchBufferAlignPC: align an address down to the fetch buffer size
(source: addr AND NOT fetchBufferMask; equal to subtracting the low bits
for a power of two buffer size). -/
def fetchBufferAlignPC (p : Params) (addr : Nat) : Nat :=
  addr - addr % p.fetchBufferSize

/-- cacheBlockAligned: align an address down to the cache block size. -/
def cacheBlockAligned (p : Params) (addr : Nat) : Nat :=
  addr - addr % p.cacheBlkSize

/-- The statuses in which a thread owns an outstanding demand request
(ItlbWait, IcacheWaitResponse, IcacheWaitRetry). -/
def isWaitStatus (st : ThreadStatus) : Bool :=
  st = ThreadStatus.ItlbWait ∨ st = ThreadStatus.IcacheWaitResponse ∨
    st = ThreadStatus.IcacheWaitRetry

/-- A thread the arbiter may pick: Running, IcacheAccessComplete or Idle. -/
def isFetchable (st : ThreadStatus) : Bool :=
  st = ThreadStatus.Running ∨ st = ThreadStatus.IcacheAccessComplete ∨
    st = ThreadStatus.Idle

/-- Replace the fetch target with the given fid in the queue of a thread. -/
def updFT (s : FetchState) (tid : Nat) (fid : Nat)
    (g : FetchTarget → FetchTarget) : FetchState :=
  { s with ftq := upd s.ftq tid ((s.ftq tid).map (fun f => if f.fid = fid then g f else f)) }

/-- ftq.findAfterHead: search the entries strictly behind the head. -/
def findAfterHead (l : List FetchTarget) (q : FetchTarget → Bool) :
    Option FetchTarget :=
  match l with
  | [] => none
  | _ :: rest => rest.find? q

/-- Fetch::doSquash (fetch.cc 1224-1278).  PC, fetch offset, macro op and
decoder reset are not modelled.  The ghost flag staleReq records whether a
request pointer survived the squash. -/
def doSquash (s : FetchState) (tid : Nat) : FetchState :=
  let s1 :=
    if s.fetchStatus tid = ThreadStatus.IcacheWaitResponse ∨
        s.fetchStatus tid = ThreadStatus.ItlbWait then
      { s with memReq := upd s.memReq tid none }
    else s
  let s2 :=
    if s1.retryTid = some tid then
      { s1 with retryPkt := none, retryTid := none }
    else s1
  { s2 with
    fetchStatus := upd s2.fetchStatus tid ThreadStatus.Squashing,
    fetchQueue := upd s2.fetchQueue tid [],
    delayedCommit := upd s2.delayedCommit tid true,
    outstandingPrefetches := 0,
    stats := { s2.stats with
      pfSquashed := s2.stats.pfSquashed + s2.outstandingPrefetches,
      squashCycles := s2.stats.squashCycles + 1 },
    staleReq := upd s2.staleReq tid (s1.memReq tid).isSome }

/-- Fetch::squash (squash from commit): doSquash plus removal of in flight
instructions (removeInstsNotInROB happens in the CPU, outside this unit). -/
def squashFromCommit (s : FetchState) (tid : Nat) : FetchState :=
  doSquash s tid

/-- Fetch::squashFromDecode: doSquash plus removeInstsUntil in the CPU. -/
def squashFromDecode (s : FetchState) (tid : Nat) : FetchState :=
  doSquash s tid

/-- Result of Fetch::makeRequest: the request, the possibly updated fetch
target, and the updated request heap and allocation counter. -/
structure MakeReqResult where
  req : Request
  ft : Option FetchTarget
  paddrOf : Nat → Option Nat
  nextRid : Nat

/-- Fetch::makeRequest (fetch.cc 798-845).  Reclaims the request attached
to the fetch target when its vaddr matches, otherwise allocates a fresh
request; pre populates the physical address from the fetch target when its
block matches the requested block. -/
def makeRequest (p : Params) (po : Nat → Option Nat) (nextRid : Nat)
    (vaddr : Nat) (ft : Option FetchTarget) : MakeReqResult :=
  let reclaim :=
    match ft with
    | some f =>
      match f.req with
      | some r =>
        if r.vaddr = vaddr then
          some (r, markReadyFT (popReqFT f))
        else none
      | none => none
    | none => none
  let step1 : Request × Option FetchTarget × Nat :=
    match reclaim with
    | some (r, f) => (r, some f, nextRid)
    | none => (⟨nextRid, vaddr⟩, ft, nextRid + 1)
  let req := step1.1
  let ft1 := step1.2.1
  let nextRid1 := step1.2.2
  let po1 :=
    match ft1 with
    | some f =>
      match f.paddr with
      | some fp =>
        if f.blkAddr = cacheBlockAligned p vaddr then
          upd po req.rid
            (some ((fp - fp % p.cacheBlkSize) + vaddr % p.cacheBlkSize))
        else po
      | none => po
    | none => po
  ⟨req, ft1, po1, nextRid1⟩

/-- Fetch::performCacheAccess (fetch.cc 848-920).  sendOk is the
environment answer of icachePort.sendTimingReq. -/
def performCacheAccess (p : Params) (s : FetchState) (vaddr : Nat)
    (tid : Nat) (req : Request) (prefetch : Bool) (sendOk : Bool) :
    FetchState × Bool :=
  let pa := (s.paddrOf req.rid).getD 0
  if ¬ p.isMemAddr pa then
    ({ s with
        fetchStatus := upd s.fetchStatus tid ThreadStatus.NoGoodAddr,
        memReq := upd s.memReq tid none,
        staleReq := upd s.staleReq tid false }, false)
  else
    let s1 :=
      if prefetch then s
      else
        { s with
          fetchBufferPC := upd s.fetchBufferPC tid vaddr,
          fetchBufferValid := upd s.fetchBufferValid tid false,
          stats := { s.stats with cacheLines := s.stats.cacheLines + 1 } }
    if ¬ sendOk then
      if prefetch then (s1, false)
      else
        ({ s1 with
            fetchStatus := upd s1.fetchStatus tid ThreadStatus.IcacheWaitRetry,
            retryPkt := some req,
            retryTid := some tid,
            cacheBlocked := true }, false)
    else
      let s2 := { s1 with
        fetchesInProgress := insertSet pa s1.fetchesInProgress,
        inFlight := (req, tid, prefetch) :: s1.inFlight }
      if prefetch then (s2, true)
      else
        ({ s2 with
            fetchStatus :=
              upd s2.fetchStatus tid ThreadStatus.IcacheWaitResponse }, true)

/-- Fetch::startTranslation (fetch.cc 786-796): bind the request to the
fetch target if one is given, count the translation before handing the
request to the MMU (modelled by pushing onto pendingTrans). -/
def startTranslation (s : FetchState) (req : Request) (tid : Nat)
    (ft : Option FetchTarget) : FetchState :=
  let s1 :=
    match ft with
    | some f => updFT s tid f.fid (startTranslationFT req)
    | none => s
  { s1 with
    outstandingTranslations := s1.outstandingTranslations + 1,
    pendingTrans := (req, tid, ft.map (fun f => f.fid)) :: s1.pendingTrans }

/-- Fetch::processTrap (fetch.cc 1149-1193).  When fetch width or the fetch
queue is exhausted the source defers by one cycle through a scheduled
event; the deferral leaves the state unchanged (the deferred firing is not
modelled).  Otherwise a fault carrying nop is enqueued (instruction ids are
opaque, 0 is used), memReq is cleared and the thread goes to TrapPending. -/
def processTrap (p : Params) (s : FetchState) (tid : Nat) : FetchState :=
  if ¬ (s.numInst < p.fetchWidth ∧
      (s.fetchQueue tid).length < p.fetchQueueSize) then s
  else
    { s with
      memReq := upd s.memReq tid none,
      staleReq := upd s.staleReq tid false,
      fetchQueue := upd s.fetchQueue tid (s.fetchQueue tid ++ [0]),
      fetchStatus := upd s.fetchStatus tid ThreadStatus.TrapPending }

/-- Commit the result of makeRequest into the state: store the new demand
request of the thread and write back the (possibly reclaimed) fetch
target. -/
def issueBase (s : FetchState) (tid : Nat) (mr : MakeReqResult) :
    FetchState :=
  let s1 := { s with
    paddrOf := mr.paddrOf,
    nextRid := mr.nextRid,
    memReq := upd s.memReq tid (some mr.req),
    staleReq := upd s.staleReq tid false }
  match mr.ft with
  | some f => updFT s1 tid f.fid (fun _ => f)
  | none => s1

/-- The dispatch after makeRequest in Fetch::fetchCacheLine (fetch.cc
769-782): a request that already carries a physical address goes straight
to the cache, otherwise a translation is started. -/
def issueCont (p : Params) (s : FetchState) (fbPC tid : Nat)
    (sendOk : Bool) (mr : MakeReqResult) : FetchState × Bool :=
  let s2 := issueBase s tid mr
  if (s2.paddrOf mr.req.rid).isSome then
    ((performCacheAccess p s2 fbPC tid mr.req false sendOk).1, true)
  else
    let s3 := { s2 with
      fetchStatus := upd s2.fetchStatus tid ThreadStatus.ItlbWait }
    (startTranslation s3 mr.req tid mr.ft, true)

/-- Helper for the tail of Fetch::fetchCacheLine (fetch.cc 769-782): build
the request (possibly reusing the fetch target request), then either access
the cache directly when the physical address is already known or start a
translation. -/
def fetchCacheLineIssue (p : Params) (s : FetchState) (fbPC : Nat)
    (tid : Nat) (ft : Option FetchTarget) (sendOk : Bool) :
    FetchState × Bool :=
  issueCont p s fbPC tid sendOk (makeRequest p s.paddrOf s.nextRid fbPC ft)

/-- The head selection of Fetch::fetchCacheLine under the decoupled front
end (fetch.cc 632-679): use the head fetch target when its block matches
the requested block; across a cache block boundary of a falling through
head, try the next fetch target; otherwise no target is used. -/
def pickFT (p : Params) (s : FetchState) (cacheBlock : Nat) (tid : Nat) :
    Option FetchTarget × FetchState :=
  if p.decoupledFrontEnd then
    match s.ftq tid with
    | [] => (none, s)
    | f :: rest =>
      if f.blkAddr ≠ cacheBlock then
        let sA := { s with stats := { s.stats with
          ftCrossCacheBlock := s.stats.ftCrossCacheBlock + 1 } }
        if f.fallThru then
          match rest with
          | [] => (none, sA)
          | g :: _ =>
            if g.blkAddr ≠ cacheBlock then
              (none, { sA with stats := { sA.stats with
                ftCrossCacheBlockNotNext :=
                  sA.stats.ftCrossCacheBlockNotNext + 1 } })
            else (some g, sA)
        else (none, sA)
      else (some f, s)
  else (none, s)

/-- The dispatch of Fetch::fetchCacheLine on the state of the chosen fetch
target (fetch.cc 681-783): promotion of an in progress prefetch to the
demand, adoption of an in progress translation, trap on a failed
translation, or a (possibly accelerated) fresh issue. -/
def fetchCacheLineFT (p : Params) (s0 : FetchState) (fbPC tid : Nat)
    (ft : Option FetchTarget) (sendOk : Bool) : FetchState × Bool :=
  match ft with
  | some f =>
    match f.state with
    | FTState.ReadyToFetch =>
      fetchCacheLineIssue p
        { s0 with stats := { s0.stats with
          ftReadyToFetch := s0.stats.ftReadyToFetch + 1 } }
        fbPC tid (some f) sendOk
    | FTState.PrefetchInProgress =>
      let sB := { s0 with stats := { s0.stats with
        ftPrefetchInProgress := s0.stats.ftPrefetchInProgress + 1,
        pfLate := s0.stats.pfLate + 1 } }
      let sC := { sB with
        outstandingPrefetches := sB.outstandingPrefetches - 1,
        fetchStatus :=
          upd sB.fetchStatus tid ThreadStatus.IcacheWaitResponse,
        fetchBufferPC := upd sB.fetchBufferPC tid fbPC,
        fetchBufferValid := upd sB.fetchBufferValid tid false,
        memReq := upd sB.memReq tid f.req,
        staleReq := upd sB.staleReq tid false }
      (updFT sC tid f.fid (fun g => markReadyFT (popReqFT g)), true)
    | FTState.TranslationInProgress =>
      let sB := { s0 with stats := { s0.stats with
        ftTranslationInProgress := s0.stats.ftTranslationInProgress + 1 } }
      let sC := { sB with
        fetchStatus := upd sB.fetchStatus tid ThreadStatus.ItlbWait,
        memReq := upd sB.memReq tid f.req,
        staleReq := upd sB.staleReq tid false }
      (updFT sC tid f.fid (fun g => markReadyFT (popReqFT g)), true)
    | FTState.TranslationFailed =>
      (processTrap p
        { s0 with stats := { s0.stats with
          ftTranslationFailed := s0.stats.ftTranslationFailed + 1 } }
        tid, true)
    | FTState.TranslationReady =>
      fetchCacheLineIssue p
        { s0 with stats := { s0.stats with
          ftTranslationReady := s0.stats.ftTranslationReady + 1 } }
        fbPC tid (some f) sendOk
    | FTState.Initial =>
      fetchCacheLineIssue p s0 fbPC tid (some f) sendOk
  | none => fetchCacheLineIssue p s0 fbPC tid none sendOk

/-- Fetch::fetchCacheLine (fetch.cc 604-783).  Under the decoupled front
end the head fetch target (or, across a cache block boundary of a falling
through target, the next one) is consulted and its state drives the demand:
prefetch promotion, translation adoption, trap, or a fresh issue. -/
def fetchCacheLine (p : Params) (s : FetchState) (vaddr : Nat) (tid : Nat)
    (sendOk : Bool) : FetchState × Bool :=
  if s.cacheBlocked then (s, false)
  else if s.interruptPending ∧ ¬ s.delayedCommit tid then (s, false)
  else
    let pick := pickFT p s (cacheBlockAligned p vaddr) tid
    fetchCacheLineFT p pick.2 (fetchBufferAlignPC p vaddr) tid pick.1 sendOk

/-- Fetch::trySatisfyPrefetch (fetch.cc 1046-1075): match the packet
request against the fetch targets behind the head; on a match mark the
target ready and give back the prefetch credit.  Returns none when the
packet does not belong to a fetch target. -/
def trySatisfyPrefetch (p : Params) (s : FetchState) (tid : Nat)
    (req : Request) : Option FetchState :=
  if ¬ p.decoupledFrontEnd then none
  else
    match findAfterHead (s.ftq tid) (fun f => f.req == some req) with
    | none => none
    | some f =>
      let s1 := updFT s tid f.fid markReadyFT
      some { s1 with
        outstandingPrefetches := s1.outstandingPrefetches - 1,
        stats := { s1.stats with
          pfReceived := s1.stats.pfReceived + 1 } }

/-- Fetch::processCacheCompletion (fetch.cc 408-472).  The packet is
identified by its request and kind; the paddr is read from the shared
request.  Filling the fetch buffer is modelled by the valid bit. -/
def processCacheCompletion (p : Params) (s : FetchState) (req : Request)
    (tid : Nat) (pf : Bool) : FetchState :=
  let pa := (s.paddrOf req.rid).getD 0
  let s0 := { s with
    inFlight := s.inFlight.erase (req, tid, pf),
    fetchesInProgress := s.fetchesInProgress.erase pa }
  if s0.fetchStatus tid ≠ ThreadStatus.IcacheWaitResponse ∨
      s0.memReq tid ≠ some req then
    match trySatisfyPrefetch p s0 tid req with
    | some s1 => s1
    | none =>
      { s0 with stats := { s0.stats with
        icacheSquashes := s0.stats.icacheSquashes + 1 } }
  else
    let s1 := { s0 with
      fetchBufferValid := upd s0.fetchBufferValid tid true }
    let s2 :=
      if s1.stallDrain tid then
        { s1 with
          fetchStatus := upd s1.fetchStatus tid ThreadStatus.Blocked }
      else
        { s1 with
          fetchStatus :=
            upd s1.fetchStatus tid ThreadStatus.IcacheAccessComplete }
    { s2 with
      memReq := upd s2.memReq tid none,
      staleReq := upd s2.staleReq tid false }

/-- Fetch::finishTranslation (fetch.cc 1079-1145), invoked by the MMU with
the outcome.  The MMU writes the physical address into the shared request
before the callback; the bound fetch target (if it is still valid, that is
still present in the FTQ) records the completion.  A completion that does
not match the current demand of the thread is a prefetch completion or a
squashed translation. -/
def finishTranslation (p : Params) (s : FetchState) (req : Request)
    (tid : Nat) (fref : Option Nat) (fault : Bool) (pa : Nat)
    (sendOk : Bool) : FetchState :=
  let s0 := { s with
    pendingTrans := s.pendingTrans.erase (req, tid, fref),
    outstandingTranslations := s.outstandingTranslations - 1,
    paddrOf := if fault then s.paddrOf else upd s.paddrOf req.rid (some pa) }
  let ftEntry :=
    match fref with
    | some fid => (s0.ftq tid).find? (fun f : FetchTarget => f.fid == fid)
    | none => none
  if s0.fetchStatus tid ≠ ThreadStatus.ItlbWait ∨
      s0.memReq tid ≠ some req then
    match ftEntry with
    | some f => updFT s0 tid f.fid (finishTranslationFT fault pa)
    | none =>
      { s0 with stats := { s0.stats with
        tlbSquashes := s0.stats.tlbSquashes + 1 } }
  else
    let s1 :=
      match ftEntry with
      | some f => updFT s0 tid f.fid (finishTranslationFT fault pa)
      | none => s0
    if fault then processTrap p s1 tid
    else (performCacheAccess p s1 req.vaddr tid req false sendOk).1

/-- The translation pre issue part of Fetch::processFTQ (fetch.cc
934-964): when below the translation ceiling, start a translation for the
first target behind the head that needs one. -/
def processFTQTrans (p : Params) (s : FetchState) (tid : Nat) :
    FetchState :=
  if s.outstandingTranslations < p.maxOutstandingTranslations then
    match findAfterHead (s.ftq tid) requiresTranslationFT with
    | some f =>
      let mr := makeRequest p s.paddrOf s.nextRid
        (fetchBufferAlignPC p f.startAddress) none
      let sA := { s with paddrOf := mr.paddrOf, nextRid := mr.nextRid }
      startTranslation sA mr.req tid (some f)
    | none => s
  else
    { s with stats := { s.stats with
      pfTranslationLimitReached :=
        s.stats.pfTranslationLimitReached + 1 } }

/-- The prefetch issue part of Fetch::processFTQ (fetch.cc 966-1016):
skipped while a retry is pending or at the prefetch ceiling; the first
target behind the head with a ready translation is prefetched, or only
marked ready when an access to its block is already in flight. -/
def processFTQPf (p : Params) (s1 : FetchState) (tid : Nat)
    (sendOk : Bool) : FetchState :=
  if s1.retryPkt ≠ none ∨ s1.cacheBlocked then s1
  else if p.maxOutstandingPrefetches ≤ s1.outstandingPrefetches then
    { s1 with stats := { s1.stats with
      pfLimitReached := s1.stats.pfLimitReached + 1 } }
  else
    match findAfterHead (s1.ftq tid) translationReadyFT with
    | none => s1
    | some f =>
      match f.req with
      | none => s1
      | some req =>
        let pa := (s1.paddrOf req.rid).getD 0
        if pa ∈ s1.fetchesInProgress then updFT s1 tid f.fid markReadyFT
        else
          let res := performCacheAccess p s1 req.vaddr tid req true sendOk
          if res.2 then
            let s2 := updFT res.1 tid f.fid prefetchIssuedFT
            { s2 with
              outstandingPrefetches := s2.outstandingPrefetches + 1,
              stats := { s2.stats with
                pfIssued := s2.stats.pfIssued + 1 } }
          else res.1

/-- Fetch::processFTQ (fetch.cc 923-1017): once per thread per tick, when
the FTQ holds at least two entries, the translation pre issue runs first
and the prefetch issue second. -/
def processFTQ (p : Params) (s : FetchState) (tid : Nat) (sendOk : Bool) :
    FetchState :=
  if (s.ftq tid).length < 2 then s
  else processFTQPf p (processFTQTrans p s tid) tid sendOk

/-- Fetch::recvReqRetry (fetch.cc 1917-1940): resend the retry packet; on
success the owning thread waits for the response and the blocked flag
clears.  A null retry packet (squashed meanwhile) only clears the flag.
The resent packet does not re enter fetchesInProgress (the source resends
through the port directly). -/
def recvReqRetry (s : FetchState) (sendOk : Bool) : FetchState :=
  match s.retryPkt with
  | some r =>
    if sendOk then
      let tid := s.retryTid.getD 0
      { s with
        fetchStatus :=
          upd s.fetchStatus tid ThreadStatus.IcacheWaitResponse,
        inFlight := (r, tid, false) :: s.inFlight,
        retryPkt := none,
        retryTid := none,
        cacheBlocked := false }
    else s
  | none => { s with cacheBlocked := false }

/-- Fetch::roundRobin (fetch.cc 1984-2011): walk the priority list, skip
non fetchable threads, move the first fetchable one to the tail and return
it; with none fetchable return no thread and leave the list unchanged. -/
def roundRobin (st : Nat → ThreadStatus) : List Nat → Option Nat × List Nat
  | [] => (none, [])
  | t :: rest =>
    if isFetchable (st t) then (some t, rest ++ [t])
    else
      let r := roundRobin st rest
      (r.1, t :: r.2)

/-- The tid chosen for a count key by the threadMap of Fetch::iqCount and
Fetch::lsqCount: the last active thread inserted with that count (map
insertion overwrites on key collision). -/
def threadMapGet (pairs : List (Nat × Nat)) (c : Nat) : Nat :=
  (((pairs.filter (fun q => q.1 = c)).getLast?).map (fun q => q.2)).getD 0

/-- The pop loop of Fetch::iqCount and Fetch::lsqCount: pop ascending
counts until the mapped thread is fetchable. -/
def pickByCount (st : Nat → ThreadStatus) (pairs : List (Nat × Nat)) :
    List Nat → Option Nat
  | [] => none
  | c :: rest =>
    let t := threadMapGet pairs c
    if isFetchable (st t) then some t else pickByCount st pairs rest

/-- Fetch::iqCount and Fetch::lsqCount (fetch.cc 2013-2082), parametrised
by the per thread count reported by IEW: ascending priority queue over the
counts of the active threads with a map from count to thread. -/
def countPolicy (s : FetchState) (cnt : Nat → Nat) : Option Nat :=
  let pairs := s.activeThreads.map (fun t => (cnt t, t))
  pickByCount s.fetchStatus pairs
    ((pairs.map (fun q => q.1)).mergeSort (fun a b => a ≤ b))

/-- Fetch::getFetchingThread (fetch.cc 1947-1981).  iqCnt and ldstqCnt are
the counts from the IEW time buffer.  The Branch policy is unimplemented in
the source (panic); it is modelled as selecting no thread. -/
def getFetchingThread (p : Params) (s : FetchState)
    (iqCnt ldstqCnt : Nat → Nat) : Option Nat × FetchState :=
  if 1 < p.numThreads then
    match p.fetchPolicy with
    | SMTFetchPolicy.RoundRobin =>
      let r := roundRobin s.fetchStatus s.priorityList
      (r.1, { s with priorityList := r.2 })
    | SMTFetchPolicy.IQCount => (countPolicy s iqCnt, s)
    | SMTFetchPolicy.LSQCount => (countPolicy s ldstqCnt, s)
    | SMTFetchPolicy.Branch => (none, s)
  else
    match s.activeThreads with
    | [] => (none, s)
    | t :: _ => if isFetchable (s.fetchStatus t) then (some t, s) else (none, s)

/-- The counter chain of Fetch::profileStall (fetch.cc 2120-2171); the
NoGoodAddr case and the fallthrough case bump no counter. -/
def profileStallStats (s : FetchState) (tid : Nat) : Stats :=
  let st := s.stats
  if s.stallDrain tid then
    { st with pendingDrainCycles := st.pendingDrainCycles + 1 }
  else if s.activeThreads = [] then
    { st with noActiveThreadStallCycles := st.noActiveThreadStallCycles + 1 }
  else if s.fetchStatus tid = ThreadStatus.Blocked then
    { st with blockedCycles := st.blockedCycles + 1 }
  else if s.fetchStatus tid = ThreadStatus.Squashing then
    { st with squashCycles := st.squashCycles + 1 }
  else if s.fetchStatus tid = ThreadStatus.IcacheWaitResponse then
    { st with icacheStallCycles := st.icacheStallCycles + 1 }
  else if s.fetchStatus tid = ThreadStatus.ItlbWait then
    { st with tlbCycles := st.tlbCycles + 1 }
  else if s.fetchStatus tid = ThreadStatus.FTQEmpty then
    { st with ftqStallCycles := st.ftqStallCycles + 1 }
  else if s.fetchStatus tid = ThreadStatus.TrapPending then
    { st with pendingTrapStallCycles := st.pendingTrapStallCycles + 1 }
  else if s.fetchStatus tid = ThreadStatus.QuiescePending then
    { st with pendingQuiesceStallCycles := st.pendingQuiesceStallCycles + 1 }
  else if s.fetchStatus tid = ThreadStatus.IcacheWaitRetry then
    { st with icacheWaitRetryStallCycles := st.icacheWaitRetryStallCycles + 1 }
  else st

/-- Fetch::profileStall only updates statistics counters. -/
def profileStall (s : FetchState) (tid : Nat) : FetchState :=
  { s with stats := profileStallStats s tid }

/-- The branch of Fetch::fetch taken when the arbiter yields no thread
(fetch.cc 1600-1609): break the loop of tick by saturating threadFetched,
and profile the stall, the latter only for a single threaded CPU. -/
def fetchOnNoThread (p : Params) (s : FetchState) : FetchState :=
  let s1 := { s with threadFetched := p.numFetchingThreads }
  if p.numThreads = 1 then profileStall s1 0 else s1

/-- Environment events driving the fetch unit: each corresponds to one
entry point of fetch.cc (or one early returning branch of
checkSignalsAndUpdate, fetch.cc 1454-1535, and of the decode loop), with
the data the environment supplies. -/
inductive Ev where
  | evFetchCacheLine (tid vaddr : Nat) (sendOk : Bool)
  | evFinishTranslation (rid : Nat) (fault : Bool) (pa : Nat) (sendOk : Bool)
  | evCacheCompletion (rid : Nat) (pf : Bool)
  | evReqRetry (sendOk : Bool)
  | evSquashFromCommit (tid : Nat)
  | evSquashFromDecode (tid : Nat)
  | evSetBlocked (tid : Nat)
  | evExitSquashBlocked (tid : Nat)
  | evFTQRefill (tid : Nat)
  | evFTQNotReady (tid : Nat)
  | evIcacheDone (tid : Nat)
  | evQuiesce (tid : Nat)
  | evWakeQuiesce
  | evDrainSet (tid : Nat)
  | evDrainResume
  | evInterrupt (pending : Bool)
  | evProcessFTQ (tid : Nat) (sendOk : Bool)
  | evFTQPush (tid startAddress : Nat) (fallThru : Bool)
  | evFTQPop (tid : Nat)
  | evFTQInvalidate (tid : Nat)

/-- One step of the fetch unit: applies the handler of the event when its
guard (the condition under which the source reaches that entry point)
holds.  Guards on completions require a matching outstanding request or
packet, mirroring the exactly once contracts of the MMU and the port. -/
def step (p : Params) (s : FetchState) : Ev → Option FetchState
  | Ev.evFetchCacheLine tid vaddr sendOk =>
    if tid < p.numThreads ∧ s.fetchStatus tid = ThreadStatus.Running ∧
        (¬ p.decoupledFrontEnd ∨ s.ftq tid ≠ []) then
      some (fetchCacheLine p s vaddr tid sendOk).1
    else none
  | Ev.evFinishTranslation rid fault pa sendOk =>
    match s.pendingTrans.find? (fun x => x.1.rid == rid) with
    | some x => some (finishTranslation p s x.1 x.2.1 x.2.2 fault pa sendOk)
    | none => none
  | Ev.evCacheCompletion rid pf =>
    match s.inFlight.find? (fun x => x.1.rid == rid && x.2.2 == pf) with
    | some x => some (processCacheCompletion p s x.1 x.2.1 x.2.2)
    | none => none
  | Ev.evReqRetry sendOk => some (recvReqRetry s sendOk)
  | Ev.evSquashFromCommit tid =>
    if tid < p.numThreads then some (squashFromCommit s tid) else none
  | Ev.evSquashFromDecode tid =>
    if tid < p.numThreads ∧ s.fetchStatus tid ≠ ThreadStatus.Squashing then
      some (squashFromDecode s tid)
    else none
  | Ev.evSetBlocked tid =>
    if tid < p.numThreads ∧ s.stallDrain tid = true ∧
        s.fetchStatus tid ≠ ThreadStatus.IcacheWaitResponse ∧
        s.fetchStatus tid ≠ ThreadStatus.IcacheWaitRetry ∧
        s.fetchStatus tid ≠ ThreadStatus.ItlbWait ∧
        s.fetchStatus tid ≠ ThreadStatus.FTQEmpty ∧
        s.fetchStatus tid ≠ ThreadStatus.QuiescePending then
      some { s with
        fetchStatus := upd s.fetchStatus tid ThreadStatus.Blocked }
    else none
  | Ev.evExitSquashBlocked tid =>
    if tid < p.numThreads ∧ s.stallDrain tid = false ∧
        (s.fetchStatus tid = ThreadStatus.Blocked ∨
          s.fetchStatus tid = ThreadStatus.Squashing) then
      some { s with
        fetchStatus := upd s.fetchStatus tid
          (if p.decoupledFrontEnd ∧ s.ftq tid = [] then ThreadStatus.FTQEmpty
           else ThreadStatus.Running) }
    else none
  | Ev.evFTQRefill tid =>
    if tid < p.numThreads ∧ s.fetchStatus tid = ThreadStatus.FTQEmpty ∧
        s.ftq tid ≠ [] then
      some { s with
        fetchStatus := upd s.fetchStatus tid ThreadStatus.Running }
    else none
  | Ev.evFTQNotReady tid =>
    if tid < p.numThreads ∧ p.decoupledFrontEnd ∧
        isFetchable (s.fetchStatus tid) then
      some { s with
        fetchStatus := upd s.fetchStatus tid ThreadStatus.FTQEmpty,
        stats := { s.stats with
          ftqStallCycles := s.stats.ftqStallCycles + 1 } }
    else none
  | Ev.evIcacheDone tid =>
    if tid < p.numThreads ∧
        s.fetchStatus tid = ThreadStatus.IcacheAccessComplete then
      some { s with
        fetchStatus := upd s.fetchStatus tid ThreadStatus.Running }
    else none
  | Ev.evQuiesce tid =>
    if tid < p.numThreads ∧ s.fetchStatus tid = ThreadStatus.Running then
      some { s with
        fetchStatus := upd s.fetchStatus tid ThreadStatus.QuiescePending }
    else none
  | Ev.evWakeQuiesce =>
    if s.fetchStatus 0 = ThreadStatus.QuiescePending then
      some { s with fetchStatus := upd s.fetchStatus 0 ThreadStatus.Running }
    else none
  | Ev.evDrainSet tid =>
    if tid < p.numThreads ∧ s.stallDrain tid = false then
      some { s with stallDrain := upd s.stallDrain tid true }
    else none
  | Ev.evDrainResume => some { s with stallDrain := fun _ => false }
  | Ev.evInterrupt pending => some { s with interruptPending := pending }
  | Ev.evProcessFTQ tid sendOk =>
    if tid < p.numThreads ∧ p.decoupledFrontEnd then
      some (processFTQ p s tid sendOk)
    else none
  | Ev.evFTQPush tid startAddress fallThru =>
    if tid < p.numThreads ∧ p.decoupledFrontEnd then
      some { s with
        ftq := upd s.ftq tid (s.ftq tid ++
          [⟨s.nextFid, FTState.Initial, none, none,
            cacheBlockAligned p startAddress, startAddress, fallThru,
            false⟩]),
        nextFid := s.nextFid + 1 }
    else none
  | Ev.evFTQPop tid =>
    if tid < p.numThreads ∧ p.decoupledFrontEnd ∧ s.ftq tid ≠ [] then
      some { s with ftq := upd s.ftq tid (s.ftq tid).tail }
    else none
  | Ev.evFTQInvalidate tid =>
    if tid < p.numThreads ∧ p.decoupledFrontEnd then
      some { s with ftq := upd s.ftq tid [] }
    else none

/-- Fetch::resetStage (fetch.cc 374-406) together with the construction
time initialisation: every thread below numThreads starts Running with
clear per thread state, the others stay Idle; no request, packet or fetch
target exists yet. -/
def initState (p : Params) : FetchState where
  fetchStatus := fun tid =>
    if tid < p.numThreads then ThreadStatus.Running else ThreadStatus.Idle
  memReq := fun _ => none
  fetchQueue := fun _ => []
  fetchBufferPC := fun _ => 0
  fetchBufferValid := fun _ => false
  stallDrain := fun _ => false
  delayedCommit := fun _ => false
  interruptPending := false
  retryPkt := none
  retryTid := none
  cacheBlocked := false
  outstandingPrefetches := 0
  outstandingTranslations := 0
  fetchesInProgress := []
  ftq := fun _ => []
  pendingTrans := []
  inFlight := []
  paddrOf := fun _ => none
  nextRid := 0
  nextFid := 0
  numInst := 0
  threadFetched := 0
  priorityList := List.range p.numThreads
  activeThreads := List.range p.numThreads
  stats := {}
  staleReq := fun _ => false

/-- Run a list of events from a state; none when a guard fails. -/
def run (p : Params) (s : FetchState) : List Ev → Option FetchState
  | [] => some s
  | e :: es =>
    match step p s e with
    | some s1 => run p s1 es
    | none => none

/-- A state of the modelled fetch unit reachable from reset. -/
def Reachable (p : Params) (s : FetchState) : Prop :=
  ∃ evs, run p (initState p) evs = some s

/-- The inductive invariant of the step system: a thread holding a demand
request is in a wait status unless the request is a stale leftover of a
squash (ghost flag), and the translation counter equals the number of
requests held by the MMU. -/
structure Inv (s : FetchState) : Prop where
  wreq : ∀ tid, (s.memReq tid).isSome = true →
    isWaitStatus (s.fetchStatus tid) = true ∨ s.staleReq tid = true
  otLen : s.outstandingTranslations = (s.pendingTrans.length : Int)

/-- Parameters of a single threaded coupled front end configuration in which
every physical address is a valid memory address. -/
def pOne : Params where
  numThreads := 1
  numFetchingThreads := 1
  decoupledFrontEnd := false
  fetchPolicy := SMTFetchPolicy.RoundRobin
  maxOutstandingPrefetches := 4
  maxOutstandingTranslations := 4
  cacheBlkSize := 64
  fetchBufferSize := 64
  fetchWidth := 4
  fetchQueueSize := 8
  isMemAddr := fun _ => true

/-- Parameters of a single threaded decoupled front end configuration with a
translation ceiling of one; physical addresses at or above 100000 fall
outside the modelled memory range. -/
def pDFE : Params where
  numThreads := 1
  numFetchingThreads := 1
  decoupledFrontEnd := true
  fetchPolicy := SMTFetchPolicy.RoundRobin
  maxOutstandingPrefetches := 2
  maxOutstandingTranslations := 1
  cacheBlkSize := 64
  fetchBufferSize := 64
  fetchWidth := 4
  fetchQueueSize := 8
  isMemAddr := fun a => a < 100000

/-- Parameters of a two threaded coupled front end configuration. -/
def pTwo : Params where
  numThreads := 2
  numFetchingThreads := 2
  decoupledFrontEnd := false
  fetchPolicy := SMTFetchPolicy.RoundRobin
  maxOutstandingPrefetches := 4
  maxOutstandingTranslations := 4
  cacheBlkSize := 64
  fetchBufferSize := 64
  fetchWidth := 4
  fetchQueueSize := 8
  isMemAddr := fun _ => true

/-- An instruction queue or load store queue count map that reports zero for
every thread. -/
def iq0 : Nat → Nat := fun _ => 0

/-- Event trace: thread 0 issues a demand fetch whose translation has not yet
returned, leaving the thread in ItlbWait with the request held. -/
def evsItlb : List Ev := [Ev.evFetchCacheLine 0 0 true]

/-- Event trace: the demand translation returns but the cache refuses the
packet, leaving the thread in IcacheWaitRetry with the request held. -/
def evsRetry : List Ev :=
  [Ev.evFetchCacheLine 0 0 true,
   Ev.evFinishTranslation 0 false 20480 false]

/-- Event trace: a squash from commit arrives while the thread waits for a
cache retry, so the squash leaves the demand request in place. -/
def evsRetrySq : List Ev := evsRetry ++ [Ev.evSquashFromCommit 0]

/-- Event trace on the decoupled front end: two fetch targets are pushed, the
second is prefetch translated and issued to the cache, and the head target is
then popped so the prefetched target becomes the queue head. -/
def evsPfHead : List Ev :=
  [Ev.evFTQPush 0 0 true,
   Ev.evFTQPush 0 64 false,
   Ev.evProcessFTQ 0 true,
   Ev.evFinishTranslation 0 false 30000 true,
   Ev.evProcessFTQ 0 true,
   Ev.evFTQPop 0]

/-- Event trace extending evsPfHead with the completion of the prefetch,
which now only matches the head entry of the fetch target queue. -/
def evsPfHeadDone : List Ev := evsPfHead ++ [Ev.evCacheCompletion 0 true]

/-- Event trace on the decoupled front end: four fetch targets are pushed and
one prefetch translation is started, filling the translation ceiling of one. -/
def evsOtFull : List Ev :=
  [Ev.evFTQPush 0 0 true,
   Ev.evFTQPush 0 64 true,
   Ev.evFTQPush 0 128 false,
   Ev.evFTQPush 0 192 false,
   Ev.evProcessFTQ 0 true]

/-- Event trace extending evsOtFull with a demand fetch, whose translation is
started although the translation ceiling is already reached. -/
def evsOtOver : List Ev := evsOtFull ++ [Ev.evFetchCacheLine 0 0 true]

/-- Event trace extending evsOtOver until the counter of outstanding
prefetches goes negative: the first demand completes, the head target is
popped, a second demand binds to a ready prefetched target past the head, a
further prefetch translation returns an address outside memory and nulls the
demand request, and the completion of the second demand then mismatches and
is credited to the prefetched target. -/
def evsOpNeg : List Ev := evsOtOver ++
  [Ev.evFinishTranslation 1 false 20480 true,
   Ev.evCacheCompletion 1 false,
   Ev.evIcacheDone 0,
   Ev.evFTQPop 0,
   Ev.evFetchCacheLine 0 128 true,
   Ev.evFinishTranslation 2 false 24576 true,
   Ev.evProcessFTQ 0 true,
   Ev.evFinishTranslation 0 false 999999 true,
   Ev.evProcessFTQ 0 true,
   Ev.evFinishTranslation 3 false 999999 true,
   Ev.evProcessFTQ 0 true,
   Ev.evCacheCompletion 2 false]

/-- State reached by evsItlb under pOne. -/
def sItlb : FetchState :=
  (run pOne (initState pOne) evsItlb).getD (initState pOne)

/-- State reached by evsRetry under pOne. -/
def sRetry : FetchState :=
  (run pOne (initState pOne) evsRetry).getD (initState pOne)

/-- State reached by evsRetrySq under pOne. -/
def sRetrySq : FetchState :=
  (run pOne (initState pOne) evsRetrySq).getD (initState pOne)

/-- State reached by evsPfHead under pDFE. -/
def sPfHead : FetchState :=
  (run pDFE (initState pDFE) evsPfHead).getD (initState pDFE)

/-- State reached by evsPfHeadDone under pDFE. -/
def sPfHeadDone : FetchState :=
  (run pDFE (initState pDFE) evsPfHeadDone).getD (initState pDFE)

/-- State reached by evsOtFull under pDFE. -/
def sOtFull : FetchState :=
  (run pDFE (initState pDFE) evsOtFull).getD (initState pDFE)

/-- State reached by evsOtOver under pDFE. -/
def sOtOver : FetchState :=
  (run pDFE (initState pDFE) evsOtOver).getD (initState pDFE)

/-- State reached by evsOpNeg under pDFE. -/
def sOpNeg : FetchState :=
  (run pDFE (initState pDFE) evsOpNeg).getD (initState pDFE)

/-- A two thread state in which both threads wait on the TLB, so no thread is
fetchable. -/
def sTwoStall : FetchState :=
  { initState pTwo with fetchStatus := fun _ => ThreadStatus.ItlbWait }

/-- A single thread state whose only thread waits on the TLB. -/
def sOneStall : FetchState :=
  { initState pOne with fetchStatus := fun _ => ThreadStatus.ItlbWait }

/-- A state whose address map sends every request to a physical address
outside the modelled memory range of pDFE. -/
def sBadPaddr : FetchState :=
  { initState pDFE with paddrOf := fun _ => some 999999 }

/-- Event trace: a demand fetch whose translation returns and whose cache
access is accepted, leaving the thread in IcacheWaitResponse. -/
def evsResp : List Ev :=
  [Ev.evFetchCacheLine 0 0 true,
   Ev.evFinishTranslation 0 false 20480 true]

/-- State reached by evsResp under pOne. -/
def sResp : FetchState :=
  (run pOne (initState pOne) evsResp).getD (initState pOne)

/-- A concrete fetch target holding a matching request and a known physical
address, for exercising the request reclaim of makeRequest. -/
def ftC5 : FetchTarget where
  fid := 0
  state := FTState.TranslationReady
  req := some ⟨5, 100⟩
  paddr := some 4096
  blkAddr := 64
  startAddress := 100
  fallThru := false
  fault := false

/-- An empty shared request address map. -/
def po5 : Nat → Option Nat := fun _ => none

/-- A status map in which only thread 1 is fetchable. -/
def stC8 : Nat → ThreadStatus :=
  fun t => if t = 1 then ThreadStatus.Running else ThreadStatus.ItlbWait

@[simp]
theorem upd_same {α : Type} (f : Nat → α) (i : Nat) (v : α) :
    upd f i v i = v := by
  simp [upd]

@[simp]
theorem upd_other {α : Type} (f : Nat → α) (i j : Nat) (v : α)
    (h : j ≠ i) : upd f i v j = f j := by
  simp [upd, h]

theorem pca_frame (p : Params) (s : FetchState) (v tid : Nat) (r : Request)
    (pf ok : Bool) :
    (performCacheAccess p s v tid r pf ok).1.pendingTrans = s.pendingTrans ∧
    (performCacheAccess p s v tid r pf ok).1.outstandingTranslations =
      s.outstandingTranslations ∧
    ∀ t, t ≠ tid →
      (performCacheAccess p s v tid r pf ok).1.memReq t = s.memReq t ∧
      (performCacheAccess p s v tid r pf ok).1.fetchStatus t =
        s.fetchStatus t ∧
      (performCacheAccess p s v tid r pf ok).1.staleReq t = s.staleReq t := by
  rcases Bool.eq_false_or_eq_true (p.isMemAddr ((s.paddrOf r.rid).getD 0))
    with h1 | h1 <;>
    cases pf <;> cases ok <;> simp [performCacheAccess, h1, upd] <;> tauto

theorem pca_demand (p : Params) (s : FetchState) (v tid : Nat) (r : Request)
    (ok : Bool) :
    (performCacheAccess p s v tid r false ok).1.memReq tid = none ∨
    isWaitStatus
      ((performCacheAccess p s v tid r false ok).1.fetchStatus tid) = true := by
  rcases Bool.eq_false_or_eq_true (p.isMemAddr ((s.paddrOf r.rid).getD 0))
    with h1 | h1 <;>
    cases ok <;> simp [performCacheAccess, h1, upd, isWaitStatus]

theorem pca_prefetch (p : Params) (s : FetchState) (v tid : Nat)
    (r : Request) (ok : Bool) :
    ((performCacheAccess p s v tid r true ok).1.memReq tid = none ∧
      (performCacheAccess p s v tid r true ok).1.staleReq tid = false) ∨
    ((performCacheAccess p s v tid r true ok).1.memReq tid = s.memReq tid ∧
      (performCacheAccess p s v tid r true ok).1.fetchStatus tid =
        s.fetchStatus tid ∧
      (performCacheAccess p s v tid r true ok).1.staleReq tid =
        s.staleReq tid) := by
  rcases Bool.eq_false_or_eq_true (p.isMemAddr ((s.paddrOf r.rid).getD 0))
    with h1 | h1 <;>
    cases ok <;> simp [performCacheAccess, h1, upd]

theorem inv_frame {s s2 : FetchState} (h : Inv s)
    (h1 : ∀ t, s2.memReq t = s.memReq t)
    (h2 : ∀ t, s2.fetchStatus t = s.fetchStatus t)
    (h3 : ∀ t, s2.staleReq t = s.staleReq t)
    (h4 : s2.pendingTrans = s.pendingTrans)
    (h5 : s2.outstandingTranslations = s.outstandingTranslations) :
    Inv s2 := by
  constructor
  · intro t ht
    rw [h1] at ht
    rw [h2, h3]
    exact h.wreq t ht
  · rw [h4, h5, h.otLen]

theorem inv_touch {s s2 : FetchState} (h : Inv s) (tid : Nat)
    (hother : ∀ t, t ≠ tid → s2.memReq t = s.memReq t ∧
      s2.fetchStatus t = s.fetchStatus t ∧ s2.staleReq t = s.staleReq t)
    (hthis : (s2.memReq tid).isSome = true →
      isWaitStatus (s2.fetchStatus tid) = true ∨ s2.staleReq tid = true)
    (h4 : s2.pendingTrans = s.pendingTrans)
    (h5 : s2.outstandingTranslations = s.outstandingTranslations) :
    Inv s2 := by
  constructor
  · intro t ht
    by_cases e : t = tid
    · subst e; exact hthis ht
    · obtain ⟨e1, e2, e3⟩ := hother t e
      rw [e1] at ht
      rw [e2, e3]
      exact h.wreq t ht
  · rw [h4, h5, h.otLen]

theorem updFT_frame (s : FetchState) (tid fid : Nat)
    (g : FetchTarget → FetchTarget) :
    (updFT s tid fid g).memReq = s.memReq ∧
    (updFT s tid fid g).fetchStatus = s.fetchStatus ∧
    (updFT s tid fid g).staleReq = s.staleReq ∧
    (updFT s tid fid g).pendingTrans = s.pendingTrans ∧
    (updFT s tid fid g).outstandingTranslations =
      s.outstandingTranslations ∧
    (updFT s tid fid g).outstandingPrefetches = s.outstandingPrefetches ∧
    (updFT s tid fid g).retryPkt = s.retryPkt ∧
    (updFT s tid fid g).cacheBlocked = s.cacheBlocked ∧
    (updFT s tid fid g).stats = s.stats := by
  simp [updFT]

theorem inv_processTrap (p : Params) (s : FetchState) (tid : Nat)
    (h : Inv s) : Inv (processTrap p s tid) := by
  unfold processTrap
  split_ifs with hc
  · refine inv_touch h tid (fun t ht => ?_) (fun hm => ?_) rfl rfl
    · simp [upd, ht]
    · simp [upd] at hm
  · exact h

theorem doSquash_memReq_this (s : FetchState) (tid : Nat) :
    (doSquash s tid).memReq tid =
      (if s.fetchStatus tid = ThreadStatus.IcacheWaitResponse ∨
          s.fetchStatus tid = ThreadStatus.ItlbWait then none
       else s.memReq tid) := by
  by_cases h1 : s.fetchStatus tid = ThreadStatus.IcacheWaitResponse ∨
      s.fetchStatus tid = ThreadStatus.ItlbWait <;>
    by_cases h2 : s.retryTid = some tid <;>
    simp [doSquash, h1, h2, upd]

theorem doSquash_staleReq_this (s : FetchState) (tid : Nat) :
    (doSquash s tid).staleReq tid = ((doSquash s tid).memReq tid).isSome := by
  by_cases h1 : s.fetchStatus tid = ThreadStatus.IcacheWaitResponse ∨
      s.fetchStatus tid = ThreadStatus.ItlbWait <;>
    by_cases h2 : s.retryTid = some tid <;>
    simp [doSquash, h1, h2, upd]

theorem doSquash_frame (s : FetchState) (tid : Nat) :
    ∀ t, t ≠ tid →
      (doSquash s tid).memReq t = s.memReq t ∧
      (doSquash s tid).fetchStatus t = s.fetchStatus t ∧
      (doSquash s tid).staleReq t = s.staleReq t := by
  intro t ht
  by_cases h1 : s.fetchStatus tid = ThreadStatus.IcacheWaitResponse ∨
      s.fetchStatus tid = ThreadStatus.ItlbWait <;>
    by_cases h2 : s.retryTid = some tid <;>
    simp [doSquash, h1, h2, upd, ht]

theorem doSquash_status_this (s : FetchState) (tid : Nat) :
    (doSquash s tid).fetchStatus tid = ThreadStatus.Squashing := by
  by_cases h1 : s.fetchStatus tid = ThreadStatus.IcacheWaitResponse ∨
      s.fetchStatus tid = ThreadStatus.ItlbWait <;>
    by_cases h2 : s.retryTid = some tid <;>
    simp [doSquash, h1, h2, upd]

theorem doSquash_queue_this (s : FetchState) (tid : Nat) :
    (doSquash s tid).fetchQueue tid = [] := by
  by_cases h1 : s.fetchStatus tid = ThreadStatus.IcacheWaitResponse ∨
      s.fetchStatus tid = ThreadStatus.ItlbWait <;>
    by_cases h2 : s.retryTid = some tid <;>
    simp [doSquash, h1, h2, upd]

theorem doSquash_retryTid_this (s : FetchState) (tid : Nat) :
    (doSquash s tid).retryTid ≠ some tid := by
  by_cases h1 : s.fetchStatus tid = ThreadStatus.IcacheWaitResponse ∨
      s.fetchStatus tid = ThreadStatus.ItlbWait <;>
    by_cases h2 : s.retryTid = some tid <;>
    simp [doSquash, h1, h2, upd, h2]

theorem doSquash_prefetchCounters (s : FetchState) (tid : Nat) :
    (doSquash s tid).outstandingPrefetches = 0 ∧
    (doSquash s tid).stats.pfSquashed =
      s.stats.pfSquashed + s.outstandingPrefetches := by
  by_cases h1 : s.fetchStatus tid = ThreadStatus.IcacheWaitResponse ∨
      s.fetchStatus tid = ThreadStatus.ItlbWait <;>
    by_cases h2 : s.retryTid = some tid <;>
    simp [doSquash, h1, h2, upd]

theorem doSquash_pending (s : FetchState) (tid : Nat) :
    (doSquash s tid).pendingTrans = s.pendingTrans ∧
    (doSquash s tid).outstandingTranslations = s.outstandingTranslations := by
  by_cases h1 : s.fetchStatus tid = ThreadStatus.IcacheWaitResponse ∨
      s.fetchStatus tid = ThreadStatus.ItlbWait <;>
    by_cases h2 : s.retryTid = some tid <;>
    simp [doSquash, h1, h2, upd]

theorem inv_doSquash (s : FetchState) (tid : Nat) (h : Inv s) :
    Inv (doSquash s tid) := by
  refine inv_touch h tid (doSquash_frame s tid) (fun hm => ?_)
    (doSquash_pending s tid).1 (doSquash_pending s tid).2
  right
  rw [doSquash_staleReq_this, hm]

theorem inv_recvReqRetry (s : FetchState) (ok : Bool) (h : Inv s) :
    Inv (recvReqRetry s ok) := by
  unfold recvReqRetry
  rcases hr : s.retryPkt with _ | r
  · exact inv_frame h (fun t => rfl) (fun t => rfl) (fun t => rfl) rfl rfl
  · split_ifs with hok
    · refine inv_touch h (s.retryTid.getD 0) (fun t ht => ?_)
        (fun hm => ?_) rfl rfl
      · simp [upd, ht]
      · left; simp [upd, isWaitStatus]
    · exact h

theorem startTranslation_fields (s : FetchState) (r : Request) (tid : Nat)
    (ft : Option FetchTarget) :
    (startTranslation s r tid ft).memReq = s.memReq ∧
    (startTranslation s r tid ft).fetchStatus = s.fetchStatus ∧
    (startTranslation s r tid ft).staleReq = s.staleReq ∧
    (startTranslation s r tid ft).pendingTrans =
      (r, tid, ft.map (fun f => f.fid)) :: s.pendingTrans ∧
    (startTranslation s r tid ft).outstandingTranslations =
      s.outstandingTranslations + 1 := by
  cases ft <;> simp [startTranslation, updFT]

theorem inv_startTranslation (s : FetchState) (r : Request) (tid : Nat)
    (ft : Option FetchTarget) (h : Inv s) :
    Inv (startTranslation s r tid ft) := by
  obtain ⟨e1, e2, e3, e4, e5⟩ := startTranslation_fields s r tid ft
  constructor
  · intro t ht
    rw [e1] at ht
    rw [e2, e3]
    exact h.wreq t ht
  · rw [e4, e5, h.otLen]
    simp [List.length_cons]

theorem inv_pca_demand_over (p : Params) (s sMid : FetchState) (tid : Nat)
    (v : Nat) (r : Request) (ok : Bool) (h : Inv s)
    (ho : ∀ t, t ≠ tid → sMid.memReq t = s.memReq t ∧
      sMid.fetchStatus t = s.fetchStatus t ∧ sMid.staleReq t = s.staleReq t)
    (hp : sMid.pendingTrans = s.pendingTrans)
    (hoT : sMid.outstandingTranslations = s.outstandingTranslations) :
    Inv (performCacheAccess p sMid v tid r false ok).1 := by
  obtain ⟨f1, f2, fother⟩ := pca_frame p sMid v tid r false ok
  refine inv_touch h tid (fun t ht => ?_) (fun hm => ?_)
    (by rw [f1, hp]) (by rw [f2, hoT])
  · obtain ⟨a1, a2, a3⟩ := fother t ht
    obtain ⟨b1, b2, b3⟩ := ho t ht
    exact ⟨a1.trans b1, a2.trans b2, a3.trans b3⟩
  · rcases pca_demand p sMid v tid r ok with hnone | hw
    · rw [hnone] at hm
      simp at hm
    · exact Or.inl hw

theorem inv_pca_prefetch_over (p : Params) (s sMid : FetchState) (tid : Nat)
    (v : Nat) (r : Request) (ok : Bool) (h : Inv s)
    (ho : ∀ t, t ≠ tid → sMid.memReq t = s.memReq t ∧
      sMid.fetchStatus t = s.fetchStatus t ∧ sMid.staleReq t = s.staleReq t)
    (hi : sMid.memReq tid = s.memReq tid ∧
      sMid.fetchStatus tid = s.fetchStatus tid ∧
      sMid.staleReq tid = s.staleReq tid)
    (hp : sMid.pendingTrans = s.pendingTrans)
    (hoT : sMid.outstandingTranslations = s.outstandingTranslations) :
    Inv (performCacheAccess p sMid v tid r true ok).1 := by
  obtain ⟨f1, f2, fother⟩ := pca_frame p sMid v tid r true ok
  refine inv_touch h tid (fun t ht => ?_) (fun hm => ?_)
    (by rw [f1, hp]) (by rw [f2, hoT])
  · obtain ⟨a1, a2, a3⟩ := fother t ht
    obtain ⟨b1, b2, b3⟩ := ho t ht
    exact ⟨a1.trans b1, a2.trans b2, a3.trans b3⟩
  · rcases pca_prefetch p sMid v tid r ok with ⟨hnone, _⟩ | ⟨e1, e2, e3⟩
    · rw [hnone] at hm
      simp at hm
    · rw [e1, hi.1] at hm
      rw [e2, hi.2.1, e3, hi.2.2]
      exact h.wreq tid hm

theorem issueBase_fields (s : FetchState) (tid : Nat) (mr : MakeReqResult) :
    (∀ t, t ≠ tid →
      (issueBase s tid mr).memReq t = s.memReq t ∧
      (issueBase s tid mr).fetchStatus t = s.fetchStatus t ∧
      (issueBase s tid mr).staleReq t = s.staleReq t) ∧
    (issueBase s tid mr).memReq tid = some mr.req ∧
    (issueBase s tid mr).fetchStatus tid = s.fetchStatus tid ∧
    (issueBase s tid mr).staleReq tid = false ∧
    (issueBase s tid mr).pendingTrans = s.pendingTrans ∧
    (issueBase s tid mr).outstandingTranslations =
      s.outstandingTranslations := by
  refine ⟨fun t ht => ?_, ?_, ?_, ?_, ?_, ?_⟩ <;>
    cases hft : mr.ft <;>
    simp_all [issueBase, updFT, upd]

theorem inv_issueCont (p : Params) (s : FetchState) (fbPC tid : Nat)
    (ok : Bool) (mr : MakeReqResult) (h : Inv s) :
    Inv (issueCont p s fbPC tid ok mr).1 := by
  obtain ⟨ho, hi1, hi2, hi3, hp, hoT⟩ := issueBase_fields s tid mr
  unfold issueCont
  dsimp only
  split_ifs with hps
  · exact inv_pca_demand_over p _ _ tid fbPC mr.req ok h ho hp hoT
  · simp only []
    apply inv_startTranslation
    refine inv_touch h tid (fun t ht => ?_) (fun hm => ?_) hp hoT
    · obtain ⟨a1, a2, a3⟩ := ho t ht
      simp [upd, ht, a1, a2, a3]
    · left
      simp [upd, isWaitStatus]

theorem inv_fetchCacheLineIssue (p : Params) (s : FetchState)
    (fbPC tid : Nat) (ft : Option FetchTarget) (ok : Bool) (h : Inv s) :
    Inv (fetchCacheLineIssue p s fbPC tid ft ok).1 := by
  unfold fetchCacheLineIssue
  exact inv_issueCont p s fbPC tid ok _ h

theorem inv_stats (s : FetchState) (st : Stats) (h : Inv s) :
    Inv { s with stats := st } :=
  inv_frame h (fun _ => rfl) (fun _ => rfl) (fun _ => rfl) rfl rfl

theorem pickFT_frame (p : Params) (s : FetchState) (cb tid : Nat) :
    ∃ st, (pickFT p s cb tid).2 = { s with stats := st } := by
  unfold pickFT
  split_ifs with h1
  · rcases s.ftq tid with _ | ⟨f, rest⟩
    · exact ⟨s.stats, rfl⟩
    · dsimp only
      split_ifs with h2 h3
      · rcases rest with _ | ⟨g, rest2⟩
        · exact ⟨_, rfl⟩
        · dsimp only
          split_ifs with h4
          · exact ⟨_, rfl⟩
          · exact ⟨_, rfl⟩
      · exact ⟨_, rfl⟩
      · exact ⟨s.stats, rfl⟩
  · exact ⟨s.stats, rfl⟩

theorem inv_fetchCacheLineFT (p : Params) (s0 : FetchState) (fbPC tid : Nat)
    (ft : Option FetchTarget) (ok : Bool) (h : Inv s0) :
    Inv (fetchCacheLineFT p s0 fbPC tid ft ok).1 := by
  rcases ft with _ | f
  · exact inv_fetchCacheLineIssue p s0 fbPC tid none ok h
  · unfold fetchCacheLineFT
    dsimp only
    rcases hst : f.state <;> simp only [hst]
    · exact inv_fetchCacheLineIssue p _ fbPC tid (some f) ok
        (inv_stats s0 _ h)
    · -- TranslationInProgress: adopt the pending translation as the demand
      refine inv_touch h tid (fun t ht => ?_) (fun hm => ?_) ?_ ?_
      · simp [updFT, upd, ht]
      · left
        simp [updFT, upd, isWaitStatus]
      · simp [updFT]
      · simp [updFT]
    · exact inv_fetchCacheLineIssue p _ fbPC tid (some f) ok
        (inv_stats s0 _ h)
    · exact inv_processTrap p _ tid (inv_stats s0 _ h)
    · -- PrefetchInProgress: promote the prefetch to the demand
      refine inv_touch h tid (fun t ht => ?_) (fun hm => ?_) ?_ ?_
      · simp [updFT, upd, ht]
      · left
        simp [updFT, upd, isWaitStatus]
      · simp [updFT]
      · simp [updFT]
    · exact inv_fetchCacheLineIssue p _ fbPC tid (some f) ok
        (inv_stats s0 _ h)

theorem inv_fetchCacheLine (p : Params) (s : FetchState) (vaddr tid : Nat)
    (ok : Bool) (h : Inv s) : Inv (fetchCacheLine p s vaddr tid ok).1 := by
  unfold fetchCacheLine
  split_ifs with h1 h2
  · exact h
  · exact h
  · obtain ⟨st, hst⟩ :=
      pickFT_frame p s (cacheBlockAligned p vaddr) tid
    dsimp only
    refine inv_fetchCacheLineFT p _ _ tid _ ok ?_
    rw [hst]
    exact inv_stats s st h

theorem trySatisfy_frame (p : Params) (s : FetchState) (tid : Nat)
    (req : Request) (s1 : FetchState)
    (h : trySatisfyPrefetch p s tid req = some s1) :
    s1.memReq = s.memReq ∧ s1.fetchStatus = s.fetchStatus ∧
    s1.staleReq = s.staleReq ∧ s1.pendingTrans = s.pendingTrans ∧
    s1.outstandingTranslations = s.outstandingTranslations := by
  unfold trySatisfyPrefetch at h
  split_ifs at h
  rcases hf : findAfterHead (s.ftq tid) (fun f => f.req == some req)
    with _ | f <;> rw [hf] at h
  · cases h
  · dsimp only at h
    injection h with h
    subst h
    simp [updFT]

theorem inv_processCacheCompletion (p : Params) (s : FetchState)
    (req : Request) (tid : Nat) (pf : Bool) (h : Inv s) :
    Inv (processCacheCompletion p s req tid pf) := by
  unfold processCacheCompletion
  dsimp only
  have h0 : Inv { s with
      inFlight := s.inFlight.erase (req, tid, pf),
      fetchesInProgress :=
        s.fetchesInProgress.erase ((s.paddrOf req.rid).getD 0) } :=
    inv_frame h (fun _ => rfl) (fun _ => rfl) (fun _ => rfl) rfl rfl
  split_ifs with hmis hd
  · rcases htry : trySatisfyPrefetch p _ tid req with _ | s1 <;>
      simp only [htry]
    · exact inv_frame h0 (fun _ => rfl) (fun _ => rfl) (fun _ => rfl) rfl rfl
    · obtain ⟨e1, e2, e3, e4, e5⟩ := trySatisfy_frame p _ tid req s1 htry
    -- the satisfied prefetch changes nothing the invariant watches
      exact inv_frame h0 (fun t => congrFun e1 t) (fun t => congrFun e2 t)
        (fun t => congrFun e3 t) e4 e5
  · refine inv_touch h0 tid (fun t ht => ?_) (fun hm => ?_) rfl rfl
    · simp [upd, ht]
    · simp [upd] at hm
  · refine inv_touch h0 tid (fun t ht => ?_) (fun hm => ?_) rfl rfl
    · simp [upd, ht]
    · simp [upd] at hm

theorem inv_finishTranslation (p : Params) (s : FetchState) (req : Request)
    (tid : Nat) (fref : Option Nat) (fault : Bool) (pa : Nat) (ok : Bool)
    (hmem : (req, tid, fref) ∈ s.pendingTrans) (h : Inv s) :
    Inv (finishTranslation p s req tid fref fault pa ok) := by
  have hlen := List.length_erase_of_mem hmem
  have hpos : 0 < s.pendingTrans.length :=
    List.length_pos.mpr (List.ne_nil_of_mem hmem)
  have hot := h.otLen
  have h0 : ∀ po2 : Nat → Option Nat, Inv { s with
      pendingTrans := s.pendingTrans.erase (req, tid, fref),
      outstandingTranslations := s.outstandingTranslations - 1,
      paddrOf := po2 } := by
    intro po2
    constructor
    · exact fun t ht => h.wreq t ht
    · show s.outstandingTranslations - 1 = _
      rw [hlen]
      omega
  unfold finishTranslation
  dsimp only
  rcases fref with _ | fid <;> (try dsimp only)
  · split_ifs <;>
      first
      | exact inv_frame (h0 s.paddrOf) (fun _ => rfl) (fun _ => rfl)
          (fun _ => rfl) rfl rfl
      | exact inv_frame (h0 (upd s.paddrOf req.rid (some pa)))
          (fun _ => rfl) (fun _ => rfl) (fun _ => rfl) rfl rfl
      | exact inv_processTrap p _ tid (h0 s.paddrOf)
      | exact inv_processTrap p _ tid
          (h0 (upd s.paddrOf req.rid (some pa)))
      | exact inv_pca_demand_over p _ _ tid req.vaddr req ok (h0 s.paddrOf)
          (fun t ht => ⟨rfl, rfl, rfl⟩) rfl rfl
      | exact inv_pca_demand_over p _ _ tid req.vaddr req ok
          (h0 (upd s.paddrOf req.rid (some pa)))
          (fun t ht => ⟨rfl, rfl, rfl⟩) rfl rfl
  · rcases hff : (s.ftq tid).find? (fun f : FetchTarget => f.fid == fid)
      with _ | f2 <;> simp only [hff] <;> (try dsimp only)
    · split_ifs <;>
        first
        | exact inv_frame (h0 s.paddrOf) (fun _ => rfl) (fun _ => rfl)
            (fun _ => rfl) rfl rfl
        | exact inv_frame (h0 (upd s.paddrOf req.rid (some pa)))
            (fun _ => rfl) (fun _ => rfl) (fun _ => rfl) rfl rfl
        | exact inv_processTrap p _ tid (h0 s.paddrOf)
        | exact inv_processTrap p _ tid
            (h0 (upd s.paddrOf req.rid (some pa)))
        | exact inv_pca_demand_over p _ _ tid req.vaddr req ok (h0 s.paddrOf)
            (fun t ht => ⟨rfl, rfl, rfl⟩) rfl rfl
        | exact inv_pca_demand_over p _ _ tid req.vaddr req ok
            (h0 (upd s.paddrOf req.rid (some pa)))
            (fun t ht => ⟨rfl, rfl, rfl⟩) rfl rfl
    · have h1 : ∀ po2 : Nat → Option Nat, Inv (updFT { s with
          pendingTrans := s.pendingTrans.erase (req, tid, some fid),
          outstandingTranslations := s.outstandingTranslations - 1,
          paddrOf := po2 }
          tid f2.fid (finishTranslationFT fault pa)) := by
        intro po2
        refine inv_frame (h0 po2) (fun t => ?_) (fun t => ?_) (fun t => ?_)
          ?_ ?_ <;> simp [updFT]
      split_ifs <;>
        first
        | exact h1 s.paddrOf
        | exact h1 (upd s.paddrOf req.rid (some pa))
        | exact inv_processTrap p _ tid (h1 s.paddrOf)
        | exact inv_processTrap p _ tid
            (h1 (upd s.paddrOf req.rid (some pa)))
        | exact inv_pca_demand_over p _ _ tid req.vaddr req ok (h1 s.paddrOf)
            (fun t ht => ⟨rfl, rfl, rfl⟩) rfl rfl
        | exact inv_pca_demand_over p _ _ tid req.vaddr req ok
            (h1 (upd s.paddrOf req.rid (some pa)))
            (fun t ht => ⟨rfl, rfl, rfl⟩) rfl rfl

theorem inv_processFTQTrans (p : Params) (s : FetchState) (tid : Nat)
    (h : Inv s) : Inv (processFTQTrans p s tid) := by
  unfold processFTQTrans
  split_ifs with h1
  · rcases hf : findAfterHead (s.ftq tid) requiresTranslationFT with _ | f <;>
      simp only [hf]
    · exact h
    · apply inv_startTranslation
      exact inv_frame h (fun _ => rfl) (fun _ => rfl) (fun _ => rfl) rfl rfl
  · exact inv_stats s _ h

theorem inv_processFTQPf (p : Params) (s1 : FetchState) (tid : Nat)
    (ok : Bool) (h : Inv s1) : Inv (processFTQPf p s1 tid ok) := by
  unfold processFTQPf
  split_ifs with h1 h2
  · exact h
  · exact inv_stats s1 _ h
  · rcases hf : findAfterHead (s1.ftq tid) translationReadyFT with _ | f <;>
      simp only [hf]
    · exact h
    · rcases hr : f.req with _ | req <;> (try dsimp only)
      · exact h
      · split_ifs with h3 h4
        · refine inv_frame h (fun t => ?_) (fun t => ?_) (fun t => ?_)
            ?_ ?_ <;> simp [updFT]
        · have hres := inv_pca_prefetch_over p s1 s1 tid req.vaddr req ok h
            (fun t ht => ⟨rfl, rfl, rfl⟩) ⟨rfl, rfl, rfl⟩ rfl rfl
          refine inv_frame hres (fun t => ?_) (fun t => ?_) (fun t => ?_)
            ?_ ?_ <;> simp [updFT]
        · exact inv_pca_prefetch_over p s1 s1 tid req.vaddr req ok h
            (fun t ht => ⟨rfl, rfl, rfl⟩) ⟨rfl, rfl, rfl⟩ rfl rfl

theorem inv_processFTQ (p : Params) (s : FetchState) (tid : Nat)
    (ok : Bool) (h : Inv s) : Inv (processFTQ p s tid ok) := by
  unfold processFTQ
  split_ifs with h1
  · exact h
  · exact inv_processFTQPf p _ tid ok (inv_processFTQTrans p s tid h)

theorem inv_setStatus (s : FetchState) (tid : Nat) (v : ThreadStatus)
    (h : Inv s) (hold : isWaitStatus (s.fetchStatus tid) = false) :
    Inv { s with fetchStatus := upd s.fetchStatus tid v } := by
  refine inv_touch h tid (fun t ht => by simp [upd, ht]) (fun hm => ?_)
    rfl rfl
  rcases h.wreq tid (by simpa using hm) with hw | hst
  · rw [hold] at hw
    cases hw
  · right
    simpa using hst

theorem inv_init (p : Params) : Inv (initState p) := by
  constructor
  · intro t ht
    simp [initState] at ht
  · simp [initState]

theorem inv_step (p : Params) (s s2 : FetchState) (e : Ev) (h : Inv s)
    (hs : step p s e = some s2) : Inv s2 := by
  cases e <;> simp only [step] at hs
  case evFetchCacheLine tid vaddr ok =>
    split_ifs at hs
    injection hs with hs
    subst hs
    exact inv_fetchCacheLine p s vaddr tid ok h
  case evFinishTranslation rid fault pa ok =>
    rcases hf : s.pendingTrans.find? (fun x => x.1.rid == rid) with _ | x <;>
      rw [hf] at hs
    · cases hs
    · injection hs with hs
      subst hs
      exact inv_finishTranslation p s x.1 x.2.1 x.2.2 fault pa ok
        (List.mem_of_find?_eq_some hf) h
  case evCacheCompletion rid pf =>
    rcases hf : s.inFlight.find?
        (fun x => x.1.rid == rid && x.2.2 == pf) with _ | x <;>
      rw [hf] at hs
    · cases hs
    · injection hs with hs
      subst hs
      exact inv_processCacheCompletion p s x.1 x.2.1 x.2.2 h
  case evReqRetry ok =>
    injection hs with hs
    subst hs
    exact inv_recvReqRetry s ok h
  case evSquashFromCommit tid =>
    split_ifs at hs
    injection hs with hs
    subst hs
    exact inv_doSquash s tid h
  case evSquashFromDecode tid =>
    split_ifs at hs
    injection hs with hs
    subst hs
    exact inv_doSquash s tid h
  case evSetBlocked tid =>
    split_ifs at hs with hg
    injection hs with hs
    subst hs
    refine inv_setStatus s tid _ h ?_
    simp [isWaitStatus, hg.2.2.1, hg.2.2.2.1, hg.2.2.2.2.1]
  case evExitSquashBlocked tid =>
    split_ifs at hs with hg hd
    all_goals
      injection hs with hs
      subst hs
      refine inv_setStatus s tid _ h ?_
      rcases hg.2.2 with hb | hb <;> simp [isWaitStatus, hb]
  case evFTQRefill tid =>
    split_ifs at hs with hg
    injection hs with hs
    subst hs
    refine inv_setStatus s tid _ h ?_
    simp [isWaitStatus, hg.2.1]
  case evFTQNotReady tid =>
    split_ifs at hs with hg
    injection hs with hs
    subst hs
    have hold : isWaitStatus (s.fetchStatus tid) = false := by
      have := hg.2.2
      simp [isFetchable] at this
      rcases this with hb | hb | hb <;> simp [isWaitStatus, hb]
    refine inv_frame (inv_setStatus s tid ThreadStatus.FTQEmpty h hold)
      (fun t => rfl) (fun t => rfl) (fun t => rfl) rfl rfl
  case evIcacheDone tid =>
    split_ifs at hs with hg
    injection hs with hs
    subst hs
    refine inv_setStatus s tid _ h ?_
    simp [isWaitStatus, hg.2]
  case evQuiesce tid =>
    split_ifs at hs with hg
    injection hs with hs
    subst hs
    refine inv_setStatus s tid _ h ?_
    simp [isWaitStatus, hg.2]
  case evWakeQuiesce =>
    split_ifs at hs with hg
    injection hs with hs
    subst hs
    refine inv_setStatus s 0 _ h ?_
    simp [isWaitStatus, hg]
  case evDrainSet tid =>
    split_ifs at hs
    injection hs with hs
    subst hs
    exact inv_frame h (fun _ => rfl) (fun _ => rfl) (fun _ => rfl) rfl rfl
  case evDrainResume =>
    injection hs with hs
    subst hs
    exact inv_frame h (fun _ => rfl) (fun _ => rfl) (fun _ => rfl) rfl rfl
  case evInterrupt pending =>
    injection hs with hs
    subst hs
    exact inv_frame h (fun _ => rfl) (fun _ => rfl) (fun _ => rfl) rfl rfl
  case evProcessFTQ tid ok =>
    split_ifs at hs
    injection hs with hs
    subst hs
    exact inv_processFTQ p s tid ok h
  case evFTQPush tid startAddress fallThru =>
    split_ifs at hs
    injection hs with hs
    subst hs
    exact inv_frame h (fun _ => rfl) (fun _ => rfl) (fun _ => rfl) rfl rfl
  case evFTQPop tid =>
    split_ifs at hs
    injection hs with hs
    subst hs
    exact inv_frame h (fun _ => rfl) (fun _ => rfl) (fun _ => rfl) rfl rfl
  case evFTQInvalidate tid =>
    split_ifs at hs
    injection hs with hs
    subst hs
    exact inv_frame h (fun _ => rfl) (fun _ => rfl) (fun _ => rfl) rfl rfl

theorem inv_run (p : Params) (evs : List Ev) (s s2 : FetchState)
    (h : Inv s) (hr : run p s evs = some s2) : Inv s2 := by
  induction evs generalizing s with
  | nil =>
    simp only [run] at hr
    injection hr with hr
    subst hr
    exact h
  | cons e rest ih =>
    simp only [run] at hr
    rcases he : step p s e with _ | s1 <;> rw [he] at hr
    · cases hr
    · exact ih s1 (inv_step p s s1 e h he) hr

theorem inv_reachable (p : Params) (s : FetchState) (h : Reachable p s) :
    Inv s := by
  obtain ⟨evs, hr⟩ := h
  exact inv_run p evs (initState p) s (inv_init p) hr

theorem pca_counters (p : Params) (s : FetchState) (v tid : Nat)
    (r : Request) (pf ok : Bool) :
    (performCacheAccess p s v tid r pf ok).1.outstandingPrefetches =
      s.outstandingPrefetches ∧
    (performCacheAccess p s v tid r pf ok).1.outstandingTranslations =
      s.outstandingTranslations := by
  rcases Bool.eq_false_or_eq_true (p.isMemAddr ((s.paddrOf r.rid).getD 0))
    with h1 | h1 <;>
    cases pf <;> cases ok <;> simp [performCacheAccess, h1, upd]

theorem processFTQTrans_counters (p : Params) (s : FetchState) (tid : Nat) :
    (processFTQTrans p s tid).outstandingPrefetches =
      s.outstandingPrefetches ∧
    (processFTQTrans p s tid).retryPkt = s.retryPkt ∧
    (processFTQTrans p s tid).cacheBlocked = s.cacheBlocked ∧
    ((processFTQTrans p s tid).outstandingTranslations =
        s.outstandingTranslations ∨
      (s.outstandingTranslations < p.maxOutstandingTranslations ∧
        (processFTQTrans p s tid).outstandingTranslations =
          s.outstandingTranslations + 1)) := by
  unfold processFTQTrans
  split_ifs with h1
  · rcases hf : findAfterHead (s.ftq tid) requiresTranslationFT with _ | f <;>
      simp only [hf]
    · simp
    · refine ⟨?_, ?_, ?_, Or.inr ⟨h1, ?_⟩⟩ <;>
        simp [startTranslation, updFT]
  · simp

theorem processFTQPf_counters (p : Params) (s1 : FetchState) (tid : Nat)
    (ok : Bool) :
    (processFTQPf p s1 tid ok).outstandingTranslations =
      s1.outstandingTranslations ∧
    ((processFTQPf p s1 tid ok).outstandingPrefetches =
        s1.outstandingPrefetches ∨
      (s1.outstandingPrefetches < p.maxOutstandingPrefetches ∧
        (processFTQPf p s1 tid ok).outstandingPrefetches =
          s1.outstandingPrefetches + 1)) := by
  unfold processFTQPf
  split_ifs with h1 h2
  · simp
  · simp
  · rcases hf : findAfterHead (s1.ftq tid) translationReadyFT with _ | f <;>
      simp only [hf]
    · simp
    · rcases hr : f.req with _ | req <;> (try dsimp only)
      · simp
      · obtain ⟨hop, hot⟩ :=
          pca_counters p s1 req.vaddr tid req true ok
        split_ifs with h3 h4
        · simp [updFT]
        · refine ⟨?_, Or.inr ⟨by omega, ?_⟩⟩ <;> simp [updFT, hop, hot]
        · exact ⟨hot, Or.inl hop⟩

theorem processFTQ_guard (p : Params) (s : FetchState) (tid : Nat)
    (ok : Bool) :
    ((processFTQ p s tid ok).outstandingPrefetches ≠
        s.outstandingPrefetches →
      s.outstandingPrefetches < p.maxOutstandingPrefetches) ∧
    ((processFTQ p s tid ok).outstandingTranslations ≠
        s.outstandingTranslations →
      s.outstandingTranslations < p.maxOutstandingTranslations) := by
  unfold processFTQ
  split_ifs with h1
  · simp
  · obtain ⟨e1, _, _, e4⟩ := processFTQTrans_counters p s tid
    obtain ⟨f1, f2⟩ :=
      processFTQPf_counters p (processFTQTrans p s tid) tid ok
    constructor
    · intro hop
      rcases f2 with f2 | ⟨f2a, f2b⟩
      · rw [f2, e1] at hop
        exact absurd rfl hop
      · rw [e1] at f2a
        exact f2a
    · intro hot
      rcases e4 with e4 | ⟨e4a, e4b⟩
      · rw [f1, e4] at hot
        exact absurd rfl hot
      · exact e4a

theorem roundRobin_none (st : Nat → ThreadStatus) (l : List Nat)
    (h : ∀ t ∈ l, isFetchable (st t) = false) :
    roundRobin st l = (none, l) := by
  induction l with
  | nil => rfl
  | cons t rest ih =>
    have ht := h t (List.mem_cons_self t rest)
    have hrest := ih (fun u hu => h u (List.mem_cons_of_mem t hu))
    simp [roundRobin, ht, hrest]

theorem roundRobin_found (st : Nat → ThreadStatus) (l1 : List Nat) (t : Nat)
    (l2 : List Nat) (h1 : ∀ u ∈ l1, isFetchable (st u) = false)
    (h2 : isFetchable (st t) = true) :
    roundRobin st (l1 ++ t :: l2) = (some t, l1 ++ l2 ++ [t]) := by
  induction l1 with
  | nil => simp [roundRobin, h2]
  | cons u rest ih =>
    have hu := h1 u (List.mem_cons_self u rest)
    have hrest := ih (fun w hw => h1 w (List.mem_cons_of_mem u hw))
    simp [roundRobin, hu, hrest]

theorem roundRobin_none_list (st : Nat → ThreadStatus) (l : List Nat)
    (h : (roundRobin st l).1 = none) : (roundRobin st l).2 = l := by
  induction l with
  | nil => rfl
  | cons t rest ih =>
    by_cases ht : isFetchable (st t) = true
    · simp [roundRobin, ht] at h
    · simp only [roundRobin] at h ⊢
      rw [if_neg ht] at h ⊢
      simp only at h ⊢
      rw [ih h]

theorem getFetchingThread_none_state (p : Params) (s : FetchState)
    (iq lq : Nat → Nat)
    (h : (getFetchingThread p s iq lq).1 = none) :
    (getFetchingThread p s iq lq).2 = s := by
  unfold getFetchingThread at h ⊢
  split_ifs at h ⊢ with h1
  · set pol := p.fetchPolicy with hpol
    clear_value pol
    cases pol <;> dsimp only at h ⊢
    rw [roundRobin_none_list s.fetchStatus s.priorityList h]
  · set act := s.activeThreads with hact
    clear_value act
    rcases act with _ | ⟨t, rest⟩ <;> dsimp only at h ⊢
    split_ifs at h ⊢ with hf
    rfl

theorem alignDown_eq_mul (a k : Nat) : a - a % 2 ^ k = 2 ^ k * (a / 2 ^ k) := by
  have := Nat.div_add_mod a (2 ^ k)
  omega

theorem alignDown_or_eq_add (a b k : Nat) :
    (a - a % 2 ^ k) ||| (b % 2 ^ k) = (a - a % 2 ^ k) + b % 2 ^ k := by
  rw [alignDown_eq_mul]
  exact (Nat.mul_add_lt_is_or (Nat.mod_lt b (Nat.two_pow_pos k)) _).symm

theorem and_not_mask_eq_alignDown (a k : Nat) (hk : k ≤ 64)
    (ha : a < 2 ^ 64) : a &&& (2 ^ 64 - 2 ^ k) = a - a % 2 ^ k := by
  have hsplit : 2 ^ 64 - 2 ^ k = 2 ^ k * (2 ^ (64 - k) - 1) := by
    rw [Nat.mul_sub, Nat.mul_one, ← pow_add]
    congr 2
    omega
  rw [hsplit, alignDown_eq_mul]
  apply Nat.eq_of_testBit_eq
  intro i
  rw [Nat.testBit_and, Nat.testBit_mul_pow_two, Nat.testBit_mul_pow_two,
    Nat.testBit_two_pow_sub_one]
  rcases lt_or_le i k with hik | hik
  · simp [Nat.not_le.mpr hik]
  · have hk2 : a / 2 ^ k = a >>> k := (Nat.shiftRight_eq_div_pow a k).symm
    rw [hk2, Nat.testBit_shiftRight]
    have hadd : k + (i - k) = i := by omega
    rw [hadd]
    rcases lt_or_le i 64 with hi64 | hi64
    · have : i - k < 64 - k := by omega
      simp [hik, this]
    · have hbit : a.testBit i = false := by
        apply Nat.testBit_lt_two_pow
        calc a < 2 ^ 64 := ha
          _ ≤ 2 ^ i := Nat.pow_le_pow_right (by omega) hi64
      have : ¬ (i - k < 64 - k) := by omega
      simp [hik, this, hbit]

/-- Claim C1 (amended): after doSquash of a thread the fetch queue of that
thread is empty and retryTid no longer names it; the demand request is
cleared exactly when the prior status was IcacheWaitResponse or ItlbWait,
and survives the squash from any other status. -/
theorem C1_doSquash_effects (s : FetchState) (tid : Nat) :
    (doSquash s tid).fetchQueue tid = [] ∧
    (doSquash s tid).retryTid ≠ some tid ∧
    (s.fetchStatus tid = ThreadStatus.IcacheWaitResponse ∨
        s.fetchStatus tid = ThreadStatus.ItlbWait →
      (doSquash s tid).memReq tid = none) ∧
    (¬ (s.fetchStatus tid = ThreadStatus.IcacheWaitResponse ∨
        s.fetchStatus tid = ThreadStatus.ItlbWait) →
      (doSquash s tid).memReq tid = s.memReq tid) := by
  refine ⟨doSquash_queue_this s tid, doSquash_retryTid_this s tid, ?_, ?_⟩ <;>
    intro h <;> rw [doSquash_memReq_this] <;> simp [h]

/-- Concrete application of C1_doSquash_effects: squashing the thread of
sItlb (which waits on the TLB) empties its fetch queue and clears its
demand request. -/
theorem C1_doSquash_effects_witness :
    (doSquash sItlb 0).fetchQueue 0 = [] ∧
    (doSquash sItlb 0).memReq 0 = none := by
  have h := C1_doSquash_effects sItlb 0
  exact ⟨h.1, h.2.2.1 (Or.inr (by rfl))⟩

/-- Counterexample to C1 as stated: in the reachable state sRetry the
thread waits for a cache retry, and squashing it leaves the demand request
in place instead of nulling it. -/
theorem C1_doSquash_counterexample :
    Reachable pOne sRetry ∧
    sRetry.fetchStatus 0 = ThreadStatus.IcacheWaitRetry ∧
    (doSquash sRetry 0).memReq 0 = some ⟨0, 0⟩ :=
  ⟨⟨evsRetry, rfl⟩, rfl, rfl⟩

/-- Claim C2 (amended): at every reachable state a thread holding a demand
request is in one of the wait statuses ItlbWait, IcacheWaitResponse or
IcacheWaitRetry, unless the request is a stale leftover of a squash taken
from IcacheWaitRetry (the ghost flag staleReq records this). -/
theorem C2_memReq_wait_status (p : Params) (s : FetchState)
    (h : Reachable p s) (tid : Nat) (hm : s.memReq tid ≠ none) :
    isWaitStatus (s.fetchStatus tid) = true ∨ s.staleReq tid = true :=
  (inv_reachable p s h).wreq tid (Option.isSome_iff_ne_none.mpr hm)

/-- Concrete application of C2_memReq_wait_status: the reachable state
sItlb holds a demand request and its thread is in a wait status. -/
theorem C2_memReq_wait_status_witness :
    isWaitStatus (sItlb.fetchStatus 0) = true ∨ sItlb.staleReq 0 = true :=
  C2_memReq_wait_status pOne sItlb ⟨evsItlb, rfl⟩ 0 (by decide)

/-- Counterexample to C2 as stated: the reachable state sRetrySq holds a
demand request while its thread is Squashing, which is none of ItlbWait,
IcacheWaitResponse or IcacheWaitRetry. -/
theorem C2_memReq_wait_status_counterexample :
    Reachable pOne sRetrySq ∧
    sRetrySq.memReq 0 = some ⟨0, 0⟩ ∧
    sRetrySq.fetchStatus 0 = ThreadStatus.Squashing :=
  ⟨⟨evsRetrySq, rfl⟩, rfl, rfl⟩

/-- Claim C3 (amended): a cache completion matching the demand of a thread
in IcacheWaitResponse validates the fetch buffer, clears the request and
moves the thread to IcacheAccessComplete (Blocked under a drain stall); a
non matching completion whose request matches a fetch target strictly
behind the FTQ head marks that target ready, decrements
outstandingPrefetches and counts pfReceived, leaving the buffer alone; any
other non matching completion (in particular one matching only the FTQ
head) only increments icacheSquashes, leaving buffer, status and prefetch
counter alone. -/
theorem C3_cache_completion (p : Params) (s : FetchState) (req : Request)
    (tid : Nat) (pf : Bool) :
    (s.fetchStatus tid = ThreadStatus.IcacheWaitResponse →
      s.memReq tid = some req →
      (processCacheCompletion p s req tid pf).fetchBufferValid tid = true ∧
      (processCacheCompletion p s req tid pf).memReq tid = none ∧
      (s.stallDrain tid = true →
        (processCacheCompletion p s req tid pf).fetchStatus tid =
          ThreadStatus.Blocked) ∧
      (s.stallDrain tid = false →
        (processCacheCompletion p s req tid pf).fetchStatus tid =
          ThreadStatus.IcacheAccessComplete)) ∧
    (∀ f, ¬ (s.fetchStatus tid = ThreadStatus.IcacheWaitResponse ∧
        s.memReq tid = some req) →
      p.decoupledFrontEnd = true →
      findAfterHead (s.ftq tid) (fun g => g.req == some req) = some f →
      (processCacheCompletion p s req tid pf).outstandingPrefetches =
        s.outstandingPrefetches - 1 ∧
      (processCacheCompletion p s req tid pf).stats.pfReceived =
        s.stats.pfReceived + 1 ∧
      (processCacheCompletion p s req tid pf).stats.icacheSquashes =
        s.stats.icacheSquashes ∧
      (processCacheCompletion p s req tid pf).fetchBufferValid tid =
        s.fetchBufferValid tid ∧
      (processCacheCompletion p s req tid pf).ftq tid =
        (s.ftq tid).map
          (fun g => if g.fid = f.fid then markReadyFT g else g)) ∧
    (¬ (s.fetchStatus tid = ThreadStatus.IcacheWaitResponse ∧
        s.memReq tid = some req) →
      (p.decoupledFrontEnd = false ∨
        findAfterHead (s.ftq tid) (fun g => g.req == some req) = none) →
      (processCacheCompletion p s req tid pf).stats.icacheSquashes =
        s.stats.icacheSquashes + 1 ∧
      (processCacheCompletion p s req tid pf).fetchBufferValid tid =
        s.fetchBufferValid tid ∧
      (processCacheCompletion p s req tid pf).fetchStatus tid =
        s.fetchStatus tid ∧
      (processCacheCompletion p s req tid pf).outstandingPrefetches =
        s.outstandingPrefetches) := by
  refine ⟨fun h1 h2 => ?_, fun f hmm hd hf => ?_, fun hmm hn => ?_⟩
  · have hcond : ¬ (s.fetchStatus tid ≠ ThreadStatus.IcacheWaitResponse ∨
        s.memReq tid ≠ some req) := by
      push_neg
      exact ⟨h1, h2⟩
    rcases Bool.eq_false_or_eq_true (s.stallDrain tid) with hs | hs <;>
      simp [processCacheCompletion, hcond, hs, upd]
  · have hcond : s.fetchStatus tid ≠ ThreadStatus.IcacheWaitResponse ∨
        s.memReq tid ≠ some req := by
      rcases not_and_or.mp hmm with h | h
      · exact Or.inl h
      · exact Or.inr h
    simp only [processCacheCompletion, trySatisfyPrefetch, hd, hf]
    simp [hcond, updFT, upd]
  · have hcond : s.fetchStatus tid ≠ ThreadStatus.IcacheWaitResponse ∨
        s.memReq tid ≠ some req := by
      rcases not_and_or.mp hmm with h | h
      · exact Or.inl h
      · exact Or.inr h
    rcases hn with hn | hn
    · simp [processCacheCompletion, trySatisfyPrefetch, hcond, hn]
    · rcases Bool.eq_false_or_eq_true p.decoupledFrontEnd with hd | hd <;>
        simp [processCacheCompletion, trySatisfyPrefetch, hcond, hn, hd]

/-- Concrete applications of C3_cache_completion: in sResp a matching
demand completion validates the buffer and completes the access; in
sPfHead the completion of the prefetch bound to the FTQ head mismatches
and only counts an icache squash. -/
theorem C3_cache_completion_witness :
    ((processCacheCompletion pOne sResp ⟨0, 0⟩ 0 false).fetchBufferValid 0 =
        true ∧
      (processCacheCompletion pOne sResp ⟨0, 0⟩ 0 false).fetchStatus 0 =
        ThreadStatus.IcacheAccessComplete) ∧
    (processCacheCompletion pDFE sPfHead ⟨0, 64⟩ 0 true).stats.icacheSquashes
      = sPfHead.stats.icacheSquashes + 1 := by
  have ha := (C3_cache_completion pOne sResp ⟨0, 0⟩ 0 false).1 rfl rfl
  have hc := (C3_cache_completion pDFE sPfHead ⟨0, 64⟩ 0 true).2.2
    (by decide) (Or.inr (by decide))
  exact ⟨⟨ha.1, ha.2.2.2 rfl⟩, hc.1⟩

/-- Counterexample to C3 as stated: in the reachable state sPfHead the
prefetched request sits in the FTQ head entry; its completion does not
match the (absent) demand, yet the entry is not marked ready and the
prefetch credit is not returned, because trySatisfyPrefetch only searches
strictly behind the head: the completion is counted as an icache squash
instead. -/
theorem C3_cache_completion_counterexample :
    Reachable pDFE sPfHead ∧
    (sPfHead.ftq 0).map (fun f => f.req) = [some ⟨0, 64⟩] ∧
    (sPfHead.ftq 0).map (fun f => f.state) =
      [FTState.PrefetchInProgress] ∧
    ¬ (sPfHead.fetchStatus 0 = ThreadStatus.IcacheWaitResponse ∧
        sPfHead.memReq 0 = some ⟨0, 64⟩) ∧
    sPfHeadDone = processCacheCompletion pDFE sPfHead ⟨0, 64⟩ 0 true ∧
    sPfHeadDone.stats.icacheSquashes = sPfHead.stats.icacheSquashes + 1 ∧
    sPfHeadDone.outstandingPrefetches = sPfHead.outstandingPrefetches ∧
    (sPfHeadDone.ftq 0).map (fun f => f.state) =
      [FTState.PrefetchInProgress] :=
  ⟨⟨evsPfHead, rfl⟩, rfl, rfl, by decide, rfl, by decide, by decide, rfl⟩

/-- Claim C4 (amended): at every reachable state outstandingTranslations
equals the number of pending translations, hence is nonnegative, and the
prefetch and translation issues of processFTQ only change their counter
when it is strictly below its ceiling; the demand translation issue of
fetchCacheLine is not so guarded, and outstandingPrefetches can go
negative, as the counterexample shows. -/
theorem C4_counter_ceilings (p : Params) (s : FetchState)
    (h : Reachable p s) :
    0 ≤ s.outstandingTranslations ∧
    s.outstandingTranslations = (s.pendingTrans.length : Int) ∧
    (∀ tid ok,
      (processFTQ p s tid ok).outstandingPrefetches ≠
          s.outstandingPrefetches →
        s.outstandingPrefetches < p.maxOutstandingPrefetches) ∧
    (∀ tid ok,
      (processFTQ p s tid ok).outstandingTranslations ≠
          s.outstandingTranslations →
        s.outstandingTranslations < p.maxOutstandingTranslations) := by
  have hI := inv_reachable p s h
  refine ⟨?_, hI.otLen, fun tid ok => (processFTQ_guard p s tid ok).1,
    fun tid ok => (processFTQ_guard p s tid ok).2⟩
  rw [hI.otLen]
  exact Int.natCast_nonneg _

/-- Concrete application of C4_counter_ceilings at the reset state. -/
theorem C4_counter_ceilings_witness :
    0 ≤ (initState pOne).outstandingTranslations ∧
    (initState pOne).outstandingTranslations =
      ((initState pOne).pendingTrans.length : Int) := by
  have h := C4_counter_ceilings pOne (initState pOne) ⟨[], rfl⟩
  exact ⟨h.1, h.2.1⟩

/-- Counterexample to C4 as stated: the reachable state sOpNeg has
outstandingPrefetches equal to minus one, and one fetchCacheLine event
raises outstandingTranslations of the reachable state sOtFull from the
configured ceiling to one above it. -/
theorem C4_counter_ceilings_counterexample :
    (Reachable pDFE sOpNeg ∧ sOpNeg.outstandingPrefetches = -1) ∧
    (Reachable pDFE sOtFull ∧
      sOtFull.outstandingTranslations = pDFE.maxOutstandingTranslations ∧
      evsOtOver = evsOtFull ++ [Ev.evFetchCacheLine 0 0 true] ∧
      run pDFE (initState pDFE) evsOtOver = some sOtOver ∧
      sOtOver.outstandingTranslations =
        sOtFull.outstandingTranslations + 1) :=
  ⟨⟨⟨evsOpNeg, rfl⟩, by decide⟩,
   ⟨⟨evsOtFull, rfl⟩, by decide, rfl, rfl, by decide⟩⟩

/-- Claim C5 (confirmed): makeRequest reclaims a matching request from the
fetch target, marking the target ready with the request detached; with a
known target physical address on the matching block the reclaimed request
receives the physical address built from the block bits of the target
address and the offset bits of the virtual address; and a request whose
physical address is known is sent to the cache directly, with no
translation started. -/
theorem C5_makeRequest_reclaim (p : Params) (po : Nat → Option Nat)
    (n vaddr : Nat) (f : FetchTarget) (r : Request) (hreq : f.req = some r)
    (hv : r.vaddr = vaddr) :
    ((makeRequest p po n vaddr (some f)).req = r ∧
      (makeRequest p po n vaddr (some f)).ft =
        some (markReadyFT (popReqFT f))) ∧
    (∀ fp k, f.paddr = some fp → f.blkAddr = cacheBlockAligned p vaddr →
      p.cacheBlkSize = 2 ^ k → k ≤ 64 → fp < 2 ^ 64 →
      (makeRequest p po n vaddr (some f)).paddrOf r.rid =
        some ((fp &&& (2 ^ 64 - 2 ^ k)) ||| (vaddr &&& (2 ^ k - 1)))) ∧
    (∀ s : FetchState, ∀ mr : MakeReqResult, ∀ fbPC tid : Nat, ∀ ok : Bool,
      ((issueBase s tid mr).paddrOf mr.req.rid).isSome = true →
      issueCont p s fbPC tid ok mr =
        ((performCacheAccess p (issueBase s tid mr) fbPC tid mr.req false
          ok).1, true) ∧
      (issueCont p s fbPC tid ok mr).1.pendingTrans = s.pendingTrans ∧
      (issueCont p s fbPC tid ok mr).1.outstandingTranslations =
        s.outstandingTranslations) := by
  refine ⟨?_, ?_, ?_⟩
  · simp [makeRequest, hreq, hv]
  · intro fp k hfp hblk hcbs hk hlt
    have e3 : (fp &&& (2 ^ 64 - 2 ^ k)) ||| (vaddr &&& (2 ^ k - 1)) =
        fp - fp % 2 ^ k + vaddr % 2 ^ k := by
      rw [and_not_mask_eq_alignDown fp k hk hlt,
        Nat.and_pow_two_sub_one_eq_mod vaddr k, alignDown_or_eq_add]
    rw [e3]
    simp [makeRequest, hreq, hv, markReadyFT, popReqFT, hfp, hblk, hcbs,
      upd]
  · intro s mr fbPC tid ok hpad
    have hfr := pca_frame p (issueBase s tid mr) fbPC tid mr.req false ok
    refine ⟨?_, ?_, ?_⟩
    · simp [issueCont, hpad]
    · simp [issueCont, hpad, hfr.1,
        (issueBase_fields s tid mr).2.2.2.2.1]
    · simp [issueCont, hpad, hfr.2.1,
        (issueBase_fields s tid mr).2.2.2.2.2]

/-- Concrete application of C5_makeRequest_reclaim: the target ftC5 holds
request 5 for virtual address 100 and physical block 4096 under a 64 byte
block size, so the reclaimed request receives physical address 4132 and
the subsequent issue starts no translation. -/
theorem C5_makeRequest_reclaim_witness :
    (makeRequest pOne po5 7 100 (some ftC5)).req = ⟨5, 100⟩ ∧
    (makeRequest pOne po5 7 100 (some ftC5)).paddrOf 5 =
      some ((4096 &&& (2 ^ 64 - 2 ^ 6)) ||| (100 &&& (2 ^ 6 - 1))) ∧
    (issueCont pOne (initState pOne) 100 0 true
      (makeRequest pOne po5 7 100 (some ftC5))).1.pendingTrans = [] := by
  have h := C5_makeRequest_reclaim pOne po5 7 100 ftC5 ⟨5, 100⟩ rfl rfl
  refine ⟨h.1.1, h.2.1 4096 6 rfl (by decide) (by decide) (by decide)
    (by decide), ?_⟩
  have h3 := h.2.2 (initState pOne)
    (makeRequest pOne po5 7 100 (some ftC5)) 100 0 true (by decide)
  exact h3.2.1

/-- Claim C6 (confirmed): when the cache refuses the timing request, a
prefetch access leaves the state exactly unchanged, while a demand access
moves the thread to IcacheWaitRetry, stores the packet and thread in
retryPkt and retryTid and raises cacheBlocked; both return false. -/
theorem C6_cache_backpressure (p : Params) (s : FetchState)
    (vaddr tid : Nat) (req : Request)
    (hmem : p.isMemAddr ((s.paddrOf req.rid).getD 0) = true) :
    performCacheAccess p s vaddr tid req true false = (s, false) ∧
    (performCacheAccess p s vaddr tid req false false).1.fetchStatus tid =
      ThreadStatus.IcacheWaitRetry ∧
    (performCacheAccess p s vaddr tid req false false).1.retryPkt =
      some req ∧
    (performCacheAccess p s vaddr tid req false false).1.retryTid =
      some tid ∧
    (performCacheAccess p s vaddr tid req false false).1.cacheBlocked =
      true ∧
    (performCacheAccess p s vaddr tid req false false).2 = false := by
  simp [performCacheAccess, hmem, upd]

/-- Concrete application of C6_cache_backpressure at the reset state of
pOne with request 0. -/
theorem C6_cache_backpressure_witness :
    performCacheAccess pOne (initState pOne) 0 0 ⟨0, 0⟩ true false =
      (initState pOne, false) ∧
    (performCacheAccess pOne (initState pOne) 0 0 ⟨0, 0⟩ false
      false).1.cacheBlocked = true := by
  have h := C6_cache_backpressure pOne (initState pOne) 0 0 ⟨0, 0⟩ rfl
  exact ⟨h.1, h.2.2.2.2.1⟩

/-- Claim C7 (confirmed): doSquash adds the pre squash value of
outstandingPrefetches to the pfSquashed counter and zeroes
outstandingPrefetches. -/
theorem C7_squash_prefetch_counters (s : FetchState) (tid : Nat) :
    (doSquash s tid).stats.pfSquashed =
      s.stats.pfSquashed + s.outstandingPrefetches ∧
    (doSquash s tid).outstandingPrefetches = 0 :=
  ⟨(doSquash_prefetchCounters s tid).2, (doSquash_prefetchCounters s tid).1⟩

/-- Claim C8 (confirmed): the round robin arbiter walks the priority list
in order, skipping exactly the threads whose status is outside Running,
IcacheAccessComplete and Idle; the first fetchable thread moves to the
tail of the list and is returned, and with no fetchable thread the list is
returned unchanged with no thread. -/
theorem C8_roundRobin (st : Nat → ThreadStatus) (l l1 l2 : List Nat)
    (t : Nat) :
    ((∀ u ∈ l, isFetchable (st u) = false) →
      roundRobin st l = (none, l)) ∧
    ((∀ u ∈ l1, isFetchable (st u) = false) →
      isFetchable (st t) = true →
      roundRobin st (l1 ++ t :: l2) = (some t, l1 ++ l2 ++ [t])) ∧
    (∀ u, isFetchable (st u) = true ↔
      (st u = ThreadStatus.Running ∨
        st u = ThreadStatus.IcacheAccessComplete ∨
        st u = ThreadStatus.Idle)) := by
  refine ⟨roundRobin_none st l, roundRobin_found st l1 t l2, fun u => ?_⟩
  cases h : st u <;> simp [isFetchable, h]

/-- Concrete application of C8_roundRobin: under stC8 only thread 1 is
fetchable, so the arbiter skips thread 0, returns thread 1 and rotates it
to the tail, and an all stalled list is left unchanged. -/
theorem C8_roundRobin_witness :
    roundRobin stC8 [0, 1, 2] = (some 1, [0, 2, 1]) ∧
    roundRobin stC8 [0, 2] = (none, [0, 2]) := by
  have h := C8_roundRobin stC8 [0, 2] [0] [2] 1
  exact ⟨h.2.1 (by decide) (by decide), h.1 (by decide)⟩

/-- Claim C9 (amended): when the arbiter yields no thread, the fetch pass
leaves the priority list as the arbiter left it and only saturates
threadFetched; every other modelled component of the state is unchanged,
and the stall accounting of profileStall with thread 0 happens only on a
single threaded CPU, the statistics staying untouched otherwise. -/
theorem C9_no_thread_fetch (p : Params) (s : FetchState) (iq lq : Nat → Nat)
    (hpol : p.fetchPolicy ≠ SMTFetchPolicy.Branch)
    (hnone : (getFetchingThread p s iq lq).1 = none) :
    (getFetchingThread p s iq lq).2 = s ∧
    (fetchOnNoThread p s).threadFetched = p.numFetchingThreads ∧
    (fetchOnNoThread p s).fetchQueue = s.fetchQueue ∧
    (fetchOnNoThread p s).memReq = s.memReq ∧
    (fetchOnNoThread p s).fetchStatus = s.fetchStatus ∧
    (fetchOnNoThread p s).ftq = s.ftq ∧
    (fetchOnNoThread p s).pendingTrans = s.pendingTrans ∧
    (fetchOnNoThread p s).inFlight = s.inFlight ∧
    (fetchOnNoThread p s).retryPkt = s.retryPkt ∧
    (fetchOnNoThread p s).outstandingPrefetches =
      s.outstandingPrefetches ∧
    (p.numThreads = 1 →
      (fetchOnNoThread p s).stats = profileStallStats s 0) ∧
    (p.numThreads ≠ 1 → (fetchOnNoThread p s).stats = s.stats) := by
  refine ⟨getFetchingThread_none_state p s iq lq hnone, ?_⟩
  by_cases h1 : p.numThreads = 1 <;>
    simp [fetchOnNoThread, profileStall, h1] <;>
    exact rfl

/-- Concrete application of C9_no_thread_fetch: with the single stalled
thread of sOneStall the pass saturates threadFetched and performs the
stall accounting of profileStall. -/
theorem C9_no_thread_fetch_witness :
    (fetchOnNoThread pOne sOneStall).threadFetched =
      pOne.numFetchingThreads ∧
    (fetchOnNoThread pOne sOneStall).stats =
      profileStallStats sOneStall 0 := by
  have h := C9_no_thread_fetch pOne sOneStall iq0 iq0 (by decide)
    (by decide)
  obtain ⟨-, h1, -, -, -, -, -, -, -, -, h10, -⟩ := h
  exact ⟨h1, h10 rfl⟩

/-- Counterexample to C9 as stated: on the two threaded configuration pTwo
with both threads stalled the arbiter yields no thread, yet the pass
performs no stall accounting at all: the statistics are unchanged, while
profileStall with thread 0 would have counted the stall. -/
theorem C9_no_thread_fetch_counterexample :
    (getFetchingThread pTwo sTwoStall iq0 iq0).1 = none ∧
    (fetchOnNoThread pTwo sTwoStall).stats = sTwoStall.stats ∧
    profileStallStats sTwoStall 0 ≠ sTwoStall.stats := by
  refine ⟨by decide, by decide, by decide⟩

/-- Claim C10 (confirmed): a prefetch access to a physical address outside
memory sets the thread status to NoGoodAddr and nulls the demand request
of the thread, clobbering demand state although the failing access was
only a prefetch; the access reports failure. -/
theorem C10_prefetch_bad_paddr (p : Params) (s : FetchState)
    (vaddr tid : Nat) (req : Request) (ok : Bool)
    (hmem : p.isMemAddr ((s.paddrOf req.rid).getD 0) = false) :
    (performCacheAccess p s vaddr tid req true ok).1.fetchStatus tid =
      ThreadStatus.NoGoodAddr ∧
    (performCacheAccess p s vaddr tid req true ok).1.memReq tid = none ∧
    (performCacheAccess p s vaddr tid req true ok).2 = false := by
  simp [performCacheAccess, hmem, upd]

/-- Concrete application of C10_prefetch_bad_paddr: in sBadPaddr every
request resolves outside memory, and a prefetch access moves thread 0 to
NoGoodAddr and clears its demand request. -/
theorem C10_prefetch_bad_paddr_witness :
    (performCacheAccess pDFE sBadPaddr 0 0 ⟨0, 0⟩ true
      true).1.fetchStatus 0 = ThreadStatus.NoGoodAddr ∧
    (performCacheAccess pDFE sBadPaddr 0 0 ⟨0, 0⟩ true true).1.memReq 0 =
      none := by
  have h := C10_prefetch_bad_paddr pDFE sBadPaddr 0 0 ⟨0, 0⟩ true
    (by decide)
  exact ⟨h.1, h.2.1⟩

end O3Fetch
